import Mathlib

set_option maxHeartbeats 1000000

/-!
Shallow embedding of the Sorcar `ScGenerate` rule interpreter
(`nodes/object_operators/ScGenerate.py`): the `DslContext` interpreter state,
the grammar operation and value hierarchy (`DslOp` / `DslValue`), the
two-phase prepare/execute driver `evaluate_production`, the `create_instance`
algorithm and the link search.

Modelling conventions:
* Python floats are modelled as `ℚ`; the interpreter only adds, multiplies
  and compares them.
* Scene-graph nodes (`bpy` objects) are finite trees carrying the custom
  properties the interpreter reads (the link name, the weight and the
  instancer directive, i.e. the values stored under the keys built from
  `PROP_LINK_KEY`, `PROP_WEIGHT_KEY` and `PROP_INSTANCER_KEY`).  World
  matrices are opaque host data; the `cur_link_matrix` slot records the id
  of the node whose world matrix was captured by `link.matrix_world.copy()`.
* `mathutils.Euler` values, the numpy random state, `re.match`, the `eval`
  based grammar parser, `bpy.data.collections` lookup and hierarchical
  duplication are host capabilities: the development is parametric in a
  `Host` record providing them, mirroring the external collaborators of the
  code (Blender and numpy).
* Python exceptions are modelled by `Exc`; execution functions return the
  mutated context together with an optional pending exception, mirroring
  CPython where the context object keeps every mutation performed before
  the raise and the bare `except:` in `evaluate_production` catches all of
  them.
* Recursion through the definitions table and the leaf instancers is
  modelled with a fuel parameter; fuel exhaustion is `Exc.recursionError`,
  matching the Python recursion limit, and it is caught by
  `evaluate_production` exactly like any other exception.
* The AST is typed where the Python code is duck-typed: argument slots whose
  runtime type checks cannot fail in a typed AST (for example
  `isinstance(self.sequence, list)`) make those `prepare` branches dead and
  they are modelled as such; the checks that remain expressible
  (`min_value > max_value`, the error paths of `assert_link_op` and
  `assert_instance_op`, the raw untyped comparison in `GnMaybe.execute`,
  the crashing fallback index in `GnWeighted.evaluate`) are kept.
-/

/-- A scene-graph node: id, the three custom properties read by the
interpreter, and the children. -/
inductive SceneNode where
  | mk (nid : Nat) (linkName : Option String) (weightProp : Option ℚ)
      (instancerProp : Option String) (children : List SceneNode)

mutual

def sceneNodeDecEq : (a b : SceneNode) → Decidable (a = b)
  | .mk n1 l1 w1 i1 c1, .mk n2 l2 w2 i2 c2 =>
    match decEq n1 n2 with
    | isFalse h => isFalse (by intro he; injection he; contradiction)
    | isTrue h1 =>
      match decEq l1 l2 with
      | isFalse h => isFalse (by intro he; injection he; contradiction)
      | isTrue h2 =>
        match decEq w1 w2 with
        | isFalse h => isFalse (by intro he; injection he; contradiction)
        | isTrue h3 =>
          match decEq i1 i2 with
          | isFalse h => isFalse (by intro he; injection he; contradiction)
          | isTrue h4 =>
            match sceneNodeListDecEq c1 c2 with
            | isFalse h => isFalse (by intro he; injection he; contradiction)
            | isTrue h5 => isTrue (by rw [h1, h2, h3, h4, h5])

def sceneNodeListDecEq : (a b : List SceneNode) → Decidable (a = b)
  | [], [] => isTrue rfl
  | [], _ :: _ => isFalse (by intro he; exact List.noConfusion he)
  | _ :: _, [] => isFalse (by intro he; exact List.noConfusion he)
  | a :: as, b :: bs =>
    match sceneNodeDecEq a b with
    | isFalse h => isFalse (by intro he; injection he; contradiction)
    | isTrue h1 =>
      match sceneNodeListDecEq as bs with
      | isFalse h => isFalse (by intro he; injection he; contradiction)
      | isTrue h2 => isTrue (by rw [h1, h2])

end

instance : DecidableEq SceneNode := sceneNodeDecEq

def SceneNode.nid : SceneNode → Nat
  | .mk n _ _ _ _ => n

def SceneNode.linkName : SceneNode → Option String
  | .mk _ l _ _ _ => l

def SceneNode.weightProp : SceneNode → Option ℚ
  | .mk _ _ w _ _ => w

def SceneNode.instancerProp : SceneNode → Option String
  | .mk _ _ _ i _ => i

def SceneNode.children : SceneNode → List SceneNode
  | .mk _ _ _ _ c => c

instance : Inhabited SceneNode := ⟨.mk 0 none none none []⟩

/-- `mathutils.Vector` triples. -/
abbrev Vec3 := ℚ × ℚ × ℚ

def vecAdd (a b : Vec3) : Vec3 := (a.1 + b.1, a.2.1 + b.2.1, a.2.2 + b.2.2)

def vecMul (a b : Vec3) : Vec3 := (a.1 * b.1, a.2.1 * b.2.1, a.2.2 * b.2.2)

/-- Grammar values (`DslValue` subclasses).  `GnStatic` is not modelled: no
claim exercises it and its only effect is to cache a nested evaluation at
prepare time. -/
inductive DslVal where
  | range (min_value max_value : Int)
  | weighted (weights : List (ℚ × ℚ))
deriving DecidableEq

/-- An operation argument: a literal constant or a dynamic `DslValue`
(`evaluate_value` accepts both uniformly). -/
inductive Arg where
  | const (q : ℚ)
  | dyn (v : DslVal)
deriving DecidableEq

/-- Grammar operations (`DslOp` subclasses).  `GnCreateLink` and
`GnCopyParentLinkChildren` only drive the scene-graph adapter and are not
needed by any claim, so they are omitted. -/
inductive DslOp where
  | define (name : String) (sequence : List DslOp)
  | exportLink (aliasName : String)
  | scope (sequence : List DslOp)
  | repeatOp (count : Arg) (sequence : List DslOp)
  | instanceOp (name : String)
  | linkOp (name : String)
  | eachLink (pattern : String) (sequence : List DslOp)
  | maybe (ratio : Arg) (sequence : List DslOp)
  | move (location : Vec3) (absolute : Bool)
  | rotateOp (rotation : Vec3) (absolute : Bool)
  | scaleOp (scaleBy : Vec3) (absolute : Bool)

/-- Python exceptions that the modelled fragment can raise. -/
inductive Exc where
  | typeError
  | indexError
  | recursionError
deriving DecidableEq

/-- External collaborators: `mathutils.Euler` (type `R`), the numpy random
state (type `RS`), `re`, the `eval` based parser and the Blender scene
adapter. -/
structure Host (R : Type) (RS : Type) where
  /-- `Euler((x, y, z), "XYZ")`. -/
  eulerXYZ : ℚ → ℚ → ℚ → R
  /-- `a.rotate(b)`: the value of `a` after being rotated by `b`. -/
  eulerRotate : R → R → R
  /-- `rand_state.rand()` and the successor state. -/
  rand : RS → ℚ × RS
  /-- `rand_state.randint(low, high)` and the successor state. -/
  randint : RS → Int → Int → Int × RS
  /-- `re.compile(pattern).match(s) != None`. -/
  reMatch : String → String → Bool
  /-- `eval(text)` materialising a production list; `none` models the raised
  exception when the text does not evaluate to a list of operations. -/
  parseOps : String → Option (List DslOp)
  /-- `bpy.data.collections[name]` filtered to its parentless members, or
  `none` when `name not in bpy.data.collections`. -/
  collections : String → Option (List SceneNode)
  /-- Hierarchical `bpy.ops.object.duplicate`; `none` models a `None` active
  object after the operator. -/
  duplicate : SceneNode → Option SceneNode

/-- One saved snapshot on the scope stack (`DslContext.push_scope`).  The
stack is modelled with the head as its top. -/
structure ScopeFrame (R : Type) where
  cur_obj : Option SceneNode
  cur_obj_aliases : Option (List (String × SceneNode))
  cur_link : Option SceneNode
  cur_link_matrix : Nat
  cur_location : Vec3
  cur_rotation : R
  cur_scale : Vec3
deriving DecidableEq

/-- One export-capture frame (`DslContext.push_define_export_capture`). -/
structure ExportCapture where
  object : Option SceneNode
  aliases : List (String × SceneNode)
deriving DecidableEq

/-- The interpreter state (`DslContext.__init__`). -/
structure DslContext (R : Type) (RS : Type) where
  rand_state : RS
  cur_obj : Option SceneNode
  cur_obj_aliases : Option (List (String × SceneNode))
  cur_link : Option SceneNode
  cur_link_matrix : Nat
  cur_location : Vec3
  cur_rotation : R
  cur_scale : Vec3
  definitions : List (String × List DslOp)
  export_captures : List ExportCapture
  scopes : List (ScopeFrame R)
  generated_objects : List SceneNode
  errors : List String

variable {R : Type} {RS : Type}

/-- `DslContext(rand_state, property_prefix, start_link)`. -/
def DslContext.init (H : Host R RS) (rs : RS) (start_link : SceneNode) :
    DslContext R RS where
  rand_state := rs
  cur_obj := none
  cur_obj_aliases := none
  cur_link := some start_link
  cur_link_matrix := start_link.nid
  cur_location := (0, 0, 0)
  cur_rotation := H.eulerXYZ 0 0 0
  cur_scale := (1, 1, 1)
  definitions := []
  export_captures := []
  scopes := []
  generated_objects := []
  errors := []

/-- `DslContext.add_error`. -/
def DslContext.add_error (ctx : DslContext R RS) (e : String) :
    DslContext R RS :=
  { ctx with errors := ctx.errors ++ [e] }

/-- `DslContext.check_for_errors` (the logging is dropped; only the returned
truth value matters). -/
def DslContext.check_for_errors (ctx : DslContext R RS) : Bool :=
  !ctx.errors.isEmpty

/-- `DslContext.add_generated_object`. -/
def DslContext.add_generated_object (ctx : DslContext R RS) (obj : SceneNode) :
    DslContext R RS :=
  { ctx with generated_objects := ctx.generated_objects ++ [obj] }

/-- `DslContext._reset_transform`. -/
def DslContext.reset_transform (H : Host R RS) (ctx : DslContext R RS) :
    DslContext R RS :=
  { ctx with
    cur_location := (0, 0, 0)
    cur_rotation := H.eulerXYZ 0 0 0
    cur_scale := (1, 1, 1) }

/-- `DslContext.set_current_object`. -/
def DslContext.set_current_object (ctx : DslContext R RS) (obj : SceneNode) :
    DslContext R RS :=
  { ctx with
    cur_obj := some obj
    cur_obj_aliases := none
    cur_link := none }

/-- `DslContext.set_current_link`. -/
def DslContext.set_current_link (H : Host R RS) (ctx : DslContext R RS)
    (link : SceneNode) : DslContext R RS :=
  { ctx with
    cur_link := some link
    cur_link_matrix := link.nid
    cur_obj := none
    cur_obj_aliases := none
    cur_location := (0, 0, 0)
    cur_rotation := H.eulerXYZ 0 0 0
    cur_scale := (1, 1, 1) }

/-- `DslContext.set_definition` (dict assignment: last write wins). -/
def DslContext.set_definition (ctx : DslContext R RS) (name : String)
    (sequence : List DslOp) : DslContext R RS :=
  { ctx with
    definitions := (name, sequence) :: ctx.definitions.filter (·.1 ≠ name) }

/-- `DslContext.get_definition`. -/
def DslContext.get_definition (ctx : DslContext R RS) (name : String) :
    Option (List DslOp) :=
  (ctx.definitions.find? (·.1 = name)).map (·.2)

/-- `DslContext.push_scope`. -/
def DslContext.push_scope (ctx : DslContext R RS) : DslContext R RS :=
  { ctx with
    scopes :=
      { cur_obj := ctx.cur_obj
        cur_obj_aliases := ctx.cur_obj_aliases
        cur_link := ctx.cur_link
        cur_link_matrix := ctx.cur_link_matrix
        cur_location := ctx.cur_location
        cur_rotation := ctx.cur_rotation
        cur_scale := ctx.cur_scale } :: ctx.scopes }

/-- `DslContext.pop_scope`; popping an empty stack is the Python
`IndexError`. -/
def DslContext.pop_scope (ctx : DslContext R RS) :
    DslContext R RS × Option Exc :=
  match ctx.scopes with
  | [] => (ctx, some .indexError)
  | top :: rest =>
      ({ ctx with
         cur_obj := top.cur_obj
         cur_obj_aliases := top.cur_obj_aliases
         cur_link := top.cur_link
         cur_link_matrix := top.cur_link_matrix
         cur_location := top.cur_location
         cur_rotation := top.cur_rotation
         cur_scale := top.cur_scale
         scopes := rest }, none)

/-- `DslContext.push_define_export_capture`. -/
def DslContext.push_define_export_capture (ctx : DslContext R RS) :
    DslContext R RS :=
  { ctx with export_captures := { object := none, aliases := [] } :: ctx.export_captures }

/-- `DslContext.define_link_export`: records `alias -> cur_link` in the top
capture frame, if any.  Its only caller (`GnExportLink.execute`) guards with
`assert_link_op`, so `cur_link` is a link there; a `None` link is recorded
as a no-op here. -/
def DslContext.define_link_export (ctx : DslContext R RS) (aliasName : String) :
    DslContext R RS :=
  match ctx.export_captures, ctx.cur_link with
  | cap :: rest, some l =>
      { ctx with
        export_captures :=
          { cap with aliases := (aliasName, l) :: cap.aliases.filter (·.1 ≠ aliasName) } :: rest }
  | _, _ => ctx

/-- `DslContext.notify_instance_created`: the top capture frame records only
the first created object. -/
def DslContext.notify_instance_created (ctx : DslContext R RS)
    (obj : SceneNode) : DslContext R RS :=
  match ctx.export_captures with
  | cap :: rest =>
      match cap.object with
      | none => { ctx with export_captures := { cap with object := some obj } :: rest }
      | some _ => ctx
  | [] => ctx

/-- `DslContext.pop_define_export_capture`; popping an empty stack is the
Python `IndexError`. -/
def DslContext.pop_define_export_capture (ctx : DslContext R RS) :
    DslContext R RS × Option Exc :=
  match ctx.export_captures with
  | [] => (ctx, some .indexError)
  | top :: rest =>
      match top.object with
      | some obj =>
          ({ ctx with
             cur_obj := some obj
             cur_obj_aliases := some top.aliases
             cur_link := none
             export_captures := rest }, none)
      | none => ({ ctx with export_captures := rest }, none)

/-! ## Link search and leaf instancers -/

mutual

/-- `DslContext._get_links_recursive`: collect matching links among the
descendants, stopping the descent at any child that carries the link-name
property (whether or not its name matches the pattern). -/
def getLinksRecursive (m : String → Bool) : SceneNode → List (String × SceneNode)
  | .mk _ _ _ _ cs => getLinksRecursiveList m cs

def getLinksRecursiveList (m : String → Bool) :
    List SceneNode → List (String × SceneNode)
  | [] => []
  | c :: rest =>
      (match c.linkName with
       | some nm => if m nm then [(nm, c)] else []
       | none => getLinksRecursive m c) ++ getLinksRecursiveList m rest

end

/-- `DslContext.get_matching_links` (the `node=None` default call): the
branch `elif self.cur_obj_aliases:` tests dict truthiness, so only a set
and non-empty alias map is searched; an unset or empty-but-set alias map
falls through to `elif self.cur_obj:` and the recursive descendant search
runs from `cur_obj`. -/
def DslContext.get_matching_links (H : Host R RS) (ctx : DslContext R RS)
    (pattern : String) : List (String × SceneNode) :=
  match ctx.cur_obj_aliases with
  | some (a :: rest) => (a :: rest).filter (fun p => H.reMatch pattern p.1)
  | _ =>
      match ctx.cur_obj with
      | some obj => getLinksRecursive (H.reMatch pattern) obj
      | none => []

/-- `DslContext.move_to_link`: follow the first search result whose link
name is exactly the requested name, else leave the cursor unchanged. -/
def DslContext.move_to_link (H : Host R RS) (ctx : DslContext R RS)
    (name : String) : DslContext R RS :=
  match (ctx.get_matching_links H name).find? (fun p => p.1 = name) with
  | some p => ctx.set_current_link H p.2
  | none => ctx

mutual

/-- `DslContext._get_leaf_instancers_recursive`. -/
def getLeafInstancersRecursive : SceneNode → List (String × SceneNode)
  | .mk n l w i cs =>
      match i, cs with
      | some s, [] => [(s, .mk n l w i cs)]
      | _, _ => getLeafInstancersRecursiveList cs

def getLeafInstancersRecursiveList : List SceneNode → List (String × SceneNode)
  | [] => []
  | c :: rest => getLeafInstancersRecursive c ++ getLeafInstancersRecursiveList rest

end

/-- `DslContext.get_leaf_instancers`. -/
def DslContext.get_leaf_instancers (ctx : DslContext R RS) :
    Option (List (String × SceneNode)) :=
  match ctx.cur_obj with
  | some obj => some (getLeafInstancersRecursive obj)
  | none => none

/-- The tail `\s*$` of the production regex under `re.MULTILINE`: it
matches at a position when the rest of the text is all whitespace, or when
a newline is reached after zero or more whitespace characters (under
MULTILINE, `$` also matches just before any newline). -/
def wsToLineEnd : List Char → Bool
  | [] => true
  | c :: rest =>
      if c = '\n' then true
      else if c.isWhitespace then wsToLineEnd rest else false

/-- The `.*\]\s*$` part of the production regex under `re.DOTALL`: some
later `]` (the dot spans newlines) is followed by a match of `\s*$`. -/
def bracketClose : List Char → Bool
  | [] => false
  | c :: rest => (c == ']' && wsToLineEnd rest) || bracketClose rest

/-- `DslContext.is_production_list`: `re.match` of `^\s*\[.*\]\s*$` with
`re.MULTILINE|re.DOTALL`.  The `\s*` before `\[` consumes the maximal
leading whitespace run, and because `$` under MULTILINE also matches just
before any newline, text after a newline-terminated `]` line is still
accepted. -/
def is_production_list (text : String) : Bool :=
  match text.data.dropWhile (fun c => c.isWhitespace) with
  | '[' :: rest => bracketClose rest
  | _ => false

/-! ## Value evaluation and the prepare pass -/

/-- The walk in `GnWeighted.evaluate` (lines 503-507): running sum over the
`(weight, value)` pairs, first pair whose cumulative sum is `>=` the
threshold wins. -/
def selectWeighted (weights : List (ℚ × ℚ)) (sum thresh : ℚ) : Option ℚ :=
  match weights with
  | [] => none
  | w :: rest =>
      if sum + w.1 ≥ thresh then some w.2 else selectWeighted rest (sum + w.1) thresh

/-- The walk in `DslContext.create_instance` (lines 372-376): running sum
over the `(candidate, weight)` pairs, first candidate whose cumulative sum
is strictly `>` the threshold wins. -/
def selectCandidate {α : Type} (pairs : List (α × ℚ)) (sum thresh : ℚ) :
    Option α :=
  match pairs with
  | [] => none
  | p :: rest =>
      if sum + p.2 > thresh then some p.1 else selectCandidate rest (sum + p.2) thresh

/-- `GnRange.evaluate` / `GnWeighted.evaluate`.  The result is the drawn
scalar, `none` for the Python `None` that `GnWeighted.evaluate` returns on
an empty weight list, or an exception: the fallback
`self.weights[self.weights - 1]` subtracts an integer from a list and
always raises `TypeError` when reached. -/
def DslVal.evaluate (H : Host R RS) : DslVal → RS → RS × Except Exc (Option ℚ)
  | .range min_value max_value, rs =>
      let (v, rs2) := H.randint rs min_value (max_value + 1)
      (rs2, .ok (some (v : ℚ)))
  | .weighted weights, rs =>
      let total : ℚ := weights.foldl (fun acc w => acc + w.1) 0
      let (r, rs2) := H.rand rs
      let thresh := total * r
      match selectWeighted weights 0 thresh with
      | some v => (rs2, .ok (some v))
      | none =>
          if weights.length > 0 then (rs2, .error .typeError)
          else (rs2, .ok none)

/-- `DslOp.evaluate_value`: a literal constant is returned unchanged, a
`DslValue` is evaluated until a constant is reached. -/
def Arg.evaluate_value (H : Host R RS) : Arg → RS → RS × Except Exc (Option ℚ)
  | .const q, rs => (rs, .ok (some q))
  | .dyn v, rs => v.evaluate H rs

/-- `GnRange.prepare` / `GnWeighted.prepare`.  The `isinstance` shape checks
cannot fail on the typed AST (in particular `GnWeighted.prepare` accepts an
empty weight list without recording an error, exactly as the Python loop
over `[]` does); the `min_value > max_value` check is live. -/
def DslVal.prepare (v : DslVal) (ctx : DslContext R RS) :
    DslContext R RS × Bool :=
  match v with
  | .range min_value max_value =>
      if min_value > max_value then
        (ctx.add_error "GnRange: max_value is less than min_value", false)
      else (ctx, true)
  | .weighted _ => (ctx, true)

/-- `DslOp.prepare_value`. -/
def Arg.prepare_value (a : Arg) (ctx : DslContext R RS) :
    DslContext R RS × Bool :=
  match a with
  | .const _ => (ctx, true)
  | .dyn v => v.prepare ctx

mutual

/-- The `prepare` methods of the `DslOp` subclasses.  Shape checks that the
typed AST makes impossible are dead; the live parts are the recursive
preparation of child items (short-circuiting on the first failure), the
registration performed by `GnDefine.prepare` and the extra error that
`GnMaybe.prepare` records when its ratio fails to prepare. -/
def DslOp.prepare : DslOp → DslContext R RS → DslContext R RS × Bool
  | .define name sequence, ctx =>
      match prepareList sequence ctx with
      | (ctx2, false) => (ctx2, false)
      | (ctx2, true) => (ctx2.set_definition name sequence, true)
  | .exportLink _, ctx => (ctx, true)
  | .scope sequence, ctx => prepareList sequence ctx
  | .repeatOp count sequence, ctx =>
      match count.prepare_value ctx with
      | (ctx2, false) => (ctx2, false)
      | (ctx2, true) => prepareList sequence ctx2
  | .instanceOp _, ctx => (ctx, true)
  | .linkOp _, ctx => (ctx, true)
  | .eachLink _ sequence, ctx => prepareList sequence ctx
  | .maybe ratio sequence, ctx =>
      match ratio.prepare_value ctx with
      | (ctx2, false) => (ctx2.add_error "GnMaybe: ratio is invalid.", false)
      | (ctx2, true) => prepareList sequence ctx2
  | .move _ _, ctx => (ctx, true)
  | .rotateOp _ _, ctx => (ctx, true)
  | .scaleOp _ _, ctx => (ctx, true)

def prepareList : List DslOp → DslContext R RS → DslContext R RS × Bool
  | [], ctx => (ctx, true)
  | op :: rest, ctx =>
      match op.prepare ctx with
      | (ctx2, false) => (ctx2, false)
      | (ctx2, true) => prepareList rest ctx2

end

/-! ## The execute pass -/

/-- Outcome of the prepare/execute loop inside `evaluate_production`:
ran to completion, returned early on a recorded error, or raised. -/
inductive ProdOutcome where
  | finished
  | failed
  | exc (e : Exc)
deriving DecidableEq

/-- Lines 350-398 of `DslContext.create_instance`: the template-collection
branch.  With a non-empty candidate list, pair each candidate with its
weight property (defaulting to 1.0 when absent or non-numeric), draw one
uniform sample, scale it by the total weight, walk the candidates with the
strict `>` comparison, fall back to the last candidate when no cumulative
sum exceeds the threshold, then duplicate the chosen subtree and make it
the current object, record it as generated and notify the capture stack.
This branch records no errors and raises nothing. -/
def instanceTemplate (H : Host R RS) (src_objects : List SceneNode)
    (ctx : DslContext R RS) : DslContext R RS :=
  match src_objects with
  | [] => ctx
  | _ :: _ =>
      let weight_pairs := src_objects.map (fun c => (c, c.weightProp.getD 1))
      let weight_total := weight_pairs.foldl (fun acc q => acc + q.2) 0
      let pr := H.rand ctx.rand_state
      let weight_thresh := pr.1 * weight_total
      let selected :=
        match selectCandidate weight_pairs 0 weight_thresh with
        | some sel => sel
        | none => src_objects.getLastD default
      let c1 := { ctx with rand_state := pr.2 }
      match H.duplicate selected with
      | none => c1
      | some copy =>
          ((c1.set_current_object copy).add_generated_object
            copy).notify_instance_created copy

mutual

/-- The `execute` methods of the `DslOp` subclasses, fuelled.  At fuel 0 the
Python recursion limit fires. -/
def execOp (H : Host R RS) :
    Nat → DslOp → DslContext R RS → DslContext R RS × Option Exc
  | 0, _, ctx => (ctx, some .recursionError)
  | fuel + 1, op, ctx =>
    match op with
    | .define _ _ => (ctx, none)
    | .exportLink aliasName =>
        if ctx.cur_link = none then
          (ctx.add_error "GnExportLink: Error: Expected to be in an operation under a direct link.", none)
        else (ctx.define_link_export aliasName, none)
    | .scope sequence =>
        let c1 := ctx.push_scope
        match execOps H fuel sequence c1 with
        | (c2, some e) => (c2, some e)
        | (c2, none) => c2.pop_scope
    | .repeatOp count sequence =>
        match count.evaluate_value H ctx.rand_state with
        | (rs2, .error e) => ({ ctx with rand_state := rs2 }, some e)
        | (rs2, .ok none) => ({ ctx with rand_state := rs2 }, some .typeError)
        | (rs2, .ok (some q)) =>
            if q.den = 1 then
              repeatLoop H fuel q.num.toNat sequence { ctx with rand_state := rs2 }
            else ({ ctx with rand_state := rs2 }, some .typeError)
    | .instanceOp name =>
        if ctx.cur_link = none then
          (ctx.add_error "GnInstance: Error: Expected to be in an operation under a direct link.", none)
        else create_instance H fuel name ctx
    | .linkOp name => (ctx.move_to_link H name, none)
    | .eachLink pattern sequence =>
        if ctx.cur_obj = none then
          (ctx.add_error "GnEachLink: Error: Expected to be in an operation under a direct geometry instance.", none)
        else eachLinkLoop H fuel (ctx.get_matching_links H pattern) sequence ctx
    | .maybe ratio sequence =>
        let p := H.rand ctx.rand_state
        let c1 := { ctx with rand_state := p.2 }
        match ratio with
        | .dyn _ => (c1, some .typeError)
        | .const q => if p.1 ≤ q then execOps H fuel sequence c1 else (c1, none)
    | .move location absolute =>
        if absolute then ({ ctx with cur_location := location }, none)
        else ({ ctx with cur_location := vecAdd ctx.cur_location location }, none)
    | .rotateOp rotation absolute =>
        if absolute then
          ({ ctx with cur_rotation := H.eulerXYZ rotation.1 rotation.2.1 rotation.2.2 }, none)
        else
          ({ ctx with cur_rotation := H.eulerRotate ctx.cur_rotation (H.eulerXYZ rotation.1 rotation.2.1 rotation.2.2) }, none)
    | .scaleOp scaleBy absolute =>
        if absolute then ({ ctx with cur_scale := scaleBy }, none)
        else ({ ctx with cur_scale := vecMul ctx.cur_scale scaleBy }, none)

/-- Execute a sequence of operations in order; a raised exception aborts the
remaining items (recorded errors do not). -/
def execOps (H : Host R RS) :
    Nat → List DslOp → DslContext R RS → DslContext R RS × Option Exc
  | 0, _, ctx => (ctx, some .recursionError)
  | _ + 1, [], ctx => (ctx, none)
  | fuel + 1, op :: rest, ctx =>
      match execOp H fuel op ctx with
      | (c, some e) => (c, some e)
      | (c, none) => execOps H fuel rest c

/-- The `for _ in range(count)` loop of `GnRepeat.execute`: no scoping. -/
def repeatLoop (H : Host R RS) :
    Nat → Nat → List DslOp → DslContext R RS → DslContext R RS × Option Exc
  | 0, _, _, ctx => (ctx, some .recursionError)
  | _ + 1, 0, _, ctx => (ctx, none)
  | fuel + 1, n + 1, sequence, ctx =>
      match execOps H fuel sequence ctx with
      | (c, some e) => (c, some e)
      | (c, none) => repeatLoop H fuel n sequence c

/-- The per-link loop of `GnEachLink.execute`: push scope, follow the link,
run the body, pop the scope (skipped when the body raises, as in Python). -/
def eachLinkLoop (H : Host R RS) :
    Nat → List (String × SceneNode) → List DslOp → DslContext R RS →
    DslContext R RS × Option Exc
  | 0, _, _, ctx => (ctx, some .recursionError)
  | _ + 1, [], _, ctx => (ctx, none)
  | fuel + 1, p :: rest, sequence, ctx =>
      let c1 := (ctx.push_scope).set_current_link H p.2
      match execOps H fuel sequence c1 with
      | (c2, some e) => (c2, some e)
      | (c2, none) =>
          match c2.pop_scope with
          | (c3, some e) => (c3, some e)
          | (c3, none) => eachLinkLoop H fuel rest sequence c3

/-- `DslContext.create_instance`: the definition branch with its export
capture frame, the weighted template-collection branch, then the leaf
instancer expansion.  The dead `bbox` assignment of lines 339-341 is not
modelled. -/
def create_instance (H : Host R RS) :
    Nat → String → DslContext R RS → DslContext R RS × Option Exc
  | 0, _, ctx => (ctx, some .recursionError)
  | fuel + 1, name, ctx =>
      match ctx.get_definition name with
      | some sequence =>
          let c1 := ctx.push_define_export_capture
          match execOps H fuel sequence c1 with
          | (c2, some e) => (c2, some e)
          | (c2, none) =>
              match c2.pop_define_export_capture with
              | (c3, some e) => (c3, some e)
              | (c3, none) => instancerStep H fuel c3
      | none =>
          match H.collections name with
          | none => instancerStep H fuel ctx
          | some src_objects => instancerStep H fuel (instanceTemplate H src_objects ctx)

/-- Lines 400-419 of `create_instance`: expand every leaf instancer of the
current object. -/
def instancerStep (H : Host R RS) :
    Nat → DslContext R RS → DslContext R RS × Option Exc
  | 0, ctx => (ctx, some .recursionError)
  | fuel + 1, ctx =>
      match ctx.get_leaf_instancers with
      | none => (ctx, none)
      | some leaves => instancerLoop H fuel leaves ctx

/-- The `for inst in instancers` loop: a bracketed directive is evaluated as
a nested production, any other directive is instanced by name; both under a
pushed scope with the cursor moved to the leaf. -/
def instancerLoop (H : Host R RS) :
    Nat → List (String × SceneNode) → DslContext R RS →
    DslContext R RS × Option Exc
  | 0, _, ctx => (ctx, some .recursionError)
  | _ + 1, [], ctx => (ctx, none)
  | fuel + 1, p :: rest, ctx =>
      if is_production_list p.1 then
        let c1 := (ctx.push_scope).set_current_link H p.2
        match evaluate_production H fuel p.1 c1 with
        | (c2, true) =>
            match c2.pop_scope with
            | (c4, some e) => (c4, some e)
            | (c4, none) => instancerLoop H fuel rest c4
        | (c2, false) =>
            match (c2.add_error "Could not evaluate instancer on object").pop_scope with
            | (c4, some e) => (c4, some e)
            | (c4, none) => instancerLoop H fuel rest c4
      else
        let c1 := (ctx.push_scope).set_current_link H p.2
        match create_instance H fuel p.1 c1 with
        | (c2, some e) => (c2, some e)
        | (c2, none) =>
            match c2.pop_scope with
            | (c3, some e) => (c3, some e)
            | (c3, none) => instancerLoop H fuel rest c3

/-- The `for op in op_list` loop of `DslContext.evaluate_production`: each
operation is PREPAREd and then immediately EXECUTEd; after either phase a
non-empty error list returns `False` for the whole production. -/
def evalProdLoop (H : Host R RS) :
    Nat → List DslOp → DslContext R RS → DslContext R RS × ProdOutcome
  | 0, _, ctx => (ctx, .exc .recursionError)
  | _ + 1, [], ctx => (ctx, .finished)
  | fuel + 1, op :: rest, ctx =>
      match op.prepare ctx with
      | (c1, _) =>
          if c1.check_for_errors then (c1, .failed)
          else
            match execOp H fuel op c1 with
            | (c2, some e) => (c2, .exc e)
            | (c2, none) =>
                if c2.check_for_errors then (c2, .failed)
                else evalProdLoop H fuel rest c2

/-- `DslContext.evaluate_production`: reject non-list text, materialise the
operation list (`eval`), run the interleaved prepare/execute loop, and turn
any raised exception into a recorded error and a `False` result. -/
def evaluate_production (H : Host R RS) :
    Nat → String → DslContext R RS → DslContext R RS × Bool
  | 0, _, ctx =>
      (ctx.add_error "Exception while evaluating rule production: RecursionError", false)
  | fuel + 1, text, ctx =>
      if is_production_list text then
        match H.parseOps text with
        | none => (ctx.add_error "Exception while evaluating rule production: eval", false)
        | some op_list =>
            match evalProdLoop H fuel op_list ctx with
            | (c, .finished) => (c, true)
            | (c, .failed) => (c, false)
            | (c, .exc _) => (c.add_error "Exception while evaluating rule production: exception", false)
      else (ctx.add_error ("Rule production is not a list: " ++ text), false)

end

/-- The `ScGenerate.post_execute` driver essentials: a fresh context on the
start object, one call to `evaluate_production`, and the generated-objects
list reported only when it returned `True`. -/
def postExecuteGenerated (H : Host R RS) (fuel : Nat) (text : String)
    (rs : RS) (start_obj : SceneNode) : List SceneNode :=
  match evaluate_production H fuel text (DslContext.init H rs start_obj) with
  | (c, true) => c.generated_objects
  | (_, false) => []

/-! ## Invariants -/

/-- The cursor is a plain `Object` (a just-created instance). -/
def isObjectCursor (ctx : DslContext R RS) : Prop :=
  ctx.cur_obj.isSome ∧ ctx.cur_obj_aliases = none ∧ ctx.cur_link = none

/-- The cursor is an `ObjectWithAliases` (a popped export capture). -/
def isAliasCursor (ctx : DslContext R RS) : Prop :=
  ctx.cur_obj.isSome ∧ ctx.cur_obj_aliases.isSome ∧ ctx.cur_link = none

/-- The cursor is a `Link`. -/
def isLinkCursor (ctx : DslContext R RS) : Prop :=
  ctx.cur_link.isSome ∧ ctx.cur_obj = none ∧ ctx.cur_obj_aliases = none

/-- The three cursor kinds are mutually exclusive; `cursorOK` states that the
context is in exactly one of them. -/
def cursorOK (ctx : DslContext R RS) : Prop :=
  isObjectCursor ctx ∨ isAliasCursor ctx ∨ isLinkCursor ctx

/-- The cursor invariant for a saved scope frame. -/
def frameOK (f : ScopeFrame R) : Prop :=
  (f.cur_obj.isSome ∧ f.cur_obj_aliases = none ∧ f.cur_link = none) ∨
  (f.cur_obj.isSome ∧ f.cur_obj_aliases.isSome ∧ f.cur_link = none) ∨
  (f.cur_link.isSome ∧ f.cur_obj = none ∧ f.cur_obj_aliases = none)

/-- The full interpreter-state invariant: the live cursor and every saved
scope frame are in exactly one cursor kind. -/
def StateOK (ctx : DslContext R RS) : Prop :=
  cursorOK ctx ∧ ∀ f ∈ ctx.scopes, frameOK f

instance (ctx : DslContext R RS) : Decidable (cursorOK ctx) := by
  unfold cursorOK isObjectCursor isAliasCursor isLinkCursor; infer_instance

instance (f : ScopeFrame R) : Decidable (frameOK f) := by
  unfold frameOK; infer_instance

instance (ctx : DslContext R RS) : Decidable (StateOK ctx) := by
  unfold StateOK; infer_instance

/-- A capture frame never loses an already-captured object. -/
def frMono (f g : ExportCapture) : Prop :=
  ∀ x, f.object = some x → g.object = some x

theorem frMono_refl (f : ExportCapture) : frMono f f := fun _ h => h

theorem frMono_trans {a b c : ExportCapture} (h1 : frMono a b)
    (h2 : frMono b c) : frMono a c := fun x h => h2 x (h1 x h)

/-- The scope stack only grows on top; the frames present on entry survive
untouched as a suffix (pops deeper in the run are always paired with pushes
performed in the same run). -/
def scopesLe (a b : List (ScopeFrame R)) : Prop := ∃ j, b = j ++ a

/-- The export-capture stack on entry survives as a suffix, each surviving
frame keeping any object it had already captured. -/
def capsLe (a b : List ExportCapture) : Prop :=
  ∃ j t, b = j ++ t ∧ List.Forall₂ frMono a t

/-- What every interpreter step preserves, success or raised exception. -/
def Pres (a b : DslContext R RS) : Prop :=
  (StateOK a → StateOK b) ∧ scopesLe a.scopes b.scopes ∧
    capsLe a.export_captures b.export_captures

theorem forall₂_frMono_refl (l : List ExportCapture) : List.Forall₂ frMono l l :=
  List.forall₂_same.2 fun x _ => frMono_refl x

theorem forall₂_append_split {α β : Type} {r : α → β → Prop} :
    ∀ {l1 l2 : List α} {t : List β}, List.Forall₂ r (l1 ++ l2) t →
      ∃ t1 t2, t = t1 ++ t2 ∧ List.Forall₂ r l1 t1 ∧ List.Forall₂ r l2 t2 := by
  intro l1
  induction l1 with
  | nil => intro l2 t h; exact ⟨[], t, rfl, List.Forall₂.nil, h⟩
  | cons a l ih =>
      intro l2 t h
      rw [List.cons_append, List.forall₂_cons_left_iff] at h
      obtain ⟨b, u, hab, hu, rfl⟩ := h
      obtain ⟨t1, t2, rfl, h1, h2⟩ := ih hu
      exact ⟨b :: t1, t2, rfl, List.Forall₂.cons hab h1, h2⟩

theorem forall₂_frMono_trans :
    ∀ {a b c : List ExportCapture}, List.Forall₂ frMono a b →
      List.Forall₂ frMono b c → List.Forall₂ frMono a c := by
  intro a b c h1 h2
  induction h1 generalizing c with
  | nil => cases h2; exact List.Forall₂.nil
  | cons hab h ih =>
      cases h2 with
      | cons hbc h2 => exact List.Forall₂.cons (frMono_trans hab hbc) (ih h2)

theorem scopesLe_refl (a : List (ScopeFrame R)) : scopesLe a a := ⟨[], rfl⟩

theorem scopesLe_trans {a b c : List (ScopeFrame R)} (h1 : scopesLe a b)
    (h2 : scopesLe b c) : scopesLe a c := by
  obtain ⟨j1, rfl⟩ := h1
  obtain ⟨j2, rfl⟩ := h2
  exact ⟨j2 ++ j1, (List.append_assoc j2 j1 a).symm⟩

theorem capsLe_refl (a : List ExportCapture) : capsLe a a :=
  ⟨[], a, rfl, forall₂_frMono_refl a⟩

theorem capsLe_trans {a b c : List ExportCapture} (h1 : capsLe a b)
    (h2 : capsLe b c) : capsLe a c := by
  obtain ⟨j1, t1, rfl, hm1⟩ := h1
  obtain ⟨j2, t2, rfl, hm2⟩ := h2
  obtain ⟨u1, u2, rfl, _, hu2⟩ := forall₂_append_split hm2
  exact ⟨j2 ++ u1, u2, (List.append_assoc j2 u1 u2).symm,
    forall₂_frMono_trans hm1 hu2⟩

theorem pres_refl (a : DslContext R RS) : Pres a a :=
  ⟨id, scopesLe_refl _, capsLe_refl _⟩

theorem pres_trans {a b c : DslContext R RS} (h1 : Pres a b) (h2 : Pres b c) :
    Pres a c :=
  ⟨fun h => h2.1 (h1.1 h), scopesLe_trans h1.2.1 h2.2.1,
    capsLe_trans h1.2.2 h2.2.2⟩

/-- A state change that keeps the cursor fields, the scope stack and the
capture stack preserves everything `Pres` tracks. -/
theorem pres_of_untouched {a b : DslContext R RS}
    (h1 : b.cur_obj = a.cur_obj) (h2 : b.cur_obj_aliases = a.cur_obj_aliases)
    (h3 : b.cur_link = a.cur_link) (h4 : b.scopes = a.scopes)
    (h5 : b.export_captures = a.export_captures) : Pres a b := by
  refine ⟨fun h => ⟨?_, ?_⟩, h4 ▸ scopesLe_refl _, h5 ▸ capsLe_refl _⟩
  · have hc := h.1
    unfold cursorOK isObjectCursor isAliasCursor isLinkCursor at hc ⊢
    rw [h1, h2, h3]; exact hc
  · rw [h4]; exact h.2

/-- A state change to a valid cursor that keeps the stacks. -/
theorem pres_of_cursor_valid {a b : DslContext R RS} (hc : cursorOK b)
    (h4 : b.scopes = a.scopes) (h5 : b.export_captures = a.export_captures) :
    Pres a b := by
  refine ⟨fun h => ⟨hc, ?_⟩, h4 ▸ scopesLe_refl _, h5 ▸ capsLe_refl _⟩
  rw [h4]; exact h.2

theorem pres_add_error (ctx : DslContext R RS) (e : String) :
    Pres ctx (ctx.add_error e) :=
  pres_of_untouched rfl rfl rfl rfl rfl

theorem pres_add_generated (ctx : DslContext R RS) (o : SceneNode) :
    Pres ctx (ctx.add_generated_object o) :=
  pres_of_untouched rfl rfl rfl rfl rfl

theorem pres_set_definition (ctx : DslContext R RS) (n : String)
    (sq : List DslOp) : Pres ctx (ctx.set_definition n sq) :=
  pres_of_untouched rfl rfl rfl rfl rfl

theorem pres_with_rand (ctx : DslContext R RS) (rs : RS) :
    Pres ctx { ctx with rand_state := rs } :=
  pres_of_untouched rfl rfl rfl rfl rfl

theorem pres_set_current_object (ctx : DslContext R RS) (obj : SceneNode) :
    Pres ctx (ctx.set_current_object obj) :=
  pres_of_cursor_valid (Or.inl ⟨rfl, rfl, rfl⟩) rfl rfl

theorem pres_set_current_link (H : Host R RS) (ctx : DslContext R RS)
    (link : SceneNode) : Pres ctx (ctx.set_current_link H link) :=
  pres_of_cursor_valid (Or.inr (Or.inr ⟨rfl, rfl, rfl⟩)) rfl rfl

theorem pres_move_to_link (H : Host R RS) (ctx : DslContext R RS)
    (name : String) : Pres ctx (ctx.move_to_link H name) := by
  unfold DslContext.move_to_link
  split
  · exact pres_set_current_link H ctx _
  · exact pres_refl ctx

theorem pres_push_scope (ctx : DslContext R RS) : Pres ctx ctx.push_scope := by
  refine ⟨fun h => ⟨h.1, ?_⟩, ⟨[_], rfl⟩, capsLe_refl _⟩
  intro f hf
  rcases List.mem_cons.mp hf with hf | hf
  · subst hf; exact h.1
  · exact h.2 f hf

theorem pres_push_cap (ctx : DslContext R RS) :
    Pres ctx ctx.push_define_export_capture :=
  ⟨fun h => ⟨h.1, h.2⟩, scopesLe_refl _,
    ⟨[{ object := none, aliases := [] }], ctx.export_captures, rfl,
      forall₂_frMono_refl _⟩⟩

theorem pres_notify (ctx : DslContext R RS) (obj : SceneNode) :
    Pres ctx (ctx.notify_instance_created obj) := by
  unfold DslContext.notify_instance_created
  split
  · next cap rest heq =>
      split
      · next hobj =>
          refine ⟨fun h => ⟨h.1, h.2⟩, scopesLe_refl _, ?_⟩
          refine ⟨[], { cap with object := some obj } :: rest, rfl, ?_⟩
          rw [heq]
          exact List.Forall₂.cons (fun x hx => by rw [hobj] at hx; cases hx)
            (forall₂_frMono_refl rest)
      · exact pres_refl ctx
  · exact pres_refl ctx

theorem pres_define_link_export (ctx : DslContext R RS) (a : String) :
    Pres ctx (ctx.define_link_export a) := by
  unfold DslContext.define_link_export
  split
  · next cap rest l heq _ =>
      refine ⟨fun h => ⟨h.1, h.2⟩, scopesLe_refl _, ?_⟩
      refine ⟨[], _, rfl, ?_⟩
      rw [heq]
      exact List.Forall₂.cons (fun x hx => hx) (forall₂_frMono_refl rest)
  · exact pres_refl ctx

/-- Unfolding equation for `pop_scope` on a non-empty stack. -/
theorem pop_scope_spec (ctx : DslContext R RS) (f : ScopeFrame R)
    (rest : List (ScopeFrame R)) (h : ctx.scopes = f :: rest) :
    ctx.pop_scope =
      ({ ctx with
         cur_obj := f.cur_obj
         cur_obj_aliases := f.cur_obj_aliases
         cur_link := f.cur_link
         cur_link_matrix := f.cur_link_matrix
         cur_location := f.cur_location
         cur_rotation := f.cur_rotation
         cur_scale := f.cur_scale
         scopes := rest }, none) := by
  unfold DslContext.pop_scope
  rw [h]

/-- Unfolding equation for `pop_define_export_capture` when the top frame
captured an object. -/
theorem pop_cap_spec_some (ctx : DslContext R RS) (t0 : ExportCapture)
    (rest : List ExportCapture) (x : SceneNode)
    (h : ctx.export_captures = t0 :: rest) (hx : t0.object = some x) :
    ctx.pop_define_export_capture =
      ({ ctx with
         cur_obj := some x
         cur_obj_aliases := some t0.aliases
         cur_link := none
         export_captures := rest }, none) := by
  unfold DslContext.pop_define_export_capture
  rw [h]
  simp only [hx]

/-- Unfolding equation for `pop_define_export_capture` when no object was
captured: the cursor is left unchanged. -/
theorem pop_cap_spec_none (ctx : DslContext R RS) (t0 : ExportCapture)
    (rest : List ExportCapture)
    (h : ctx.export_captures = t0 :: rest) (hx : t0.object = none) :
    ctx.pop_define_export_capture =
      ({ ctx with export_captures := rest }, none) := by
  unfold DslContext.pop_define_export_capture
  rw [h]
  simp only [hx]

/-- Popping a scope while the entry stack `orig` sits below at least one
frame: the pop succeeds, the capture stack is untouched, `orig` survives as
a suffix, and validity is preserved. -/
theorem pop_scope_pres (ctx : DslContext R RS) (orig : List (ScopeFrame R))
    (j : List (ScopeFrame R)) (f : ScopeFrame R)
    (h : ctx.scopes = j ++ f :: orig) :
    (StateOK ctx → StateOK (ctx.pop_scope).1) ∧
    scopesLe orig (ctx.pop_scope).1.scopes ∧
    (ctx.pop_scope).1.export_captures = ctx.export_captures ∧
    (ctx.pop_scope).2 = none := by
  cases j with
  | nil =>
      simp only [List.nil_append] at h
      rw [pop_scope_spec ctx f orig h]
      refine ⟨fun hs => ⟨?_, ?_⟩, ⟨[], rfl⟩, rfl, rfl⟩
      · exact hs.2 f (h ▸ List.mem_cons_self f orig)
      · intro g hg
        exact hs.2 g (h ▸ List.mem_cons_of_mem f hg)
  | cons a j2 =>
      rw [List.cons_append] at h
      rw [pop_scope_spec ctx a (j2 ++ f :: orig) h]
      refine ⟨fun hs => ⟨?_, ?_⟩, ⟨j2 ++ [f], by simp⟩, rfl, rfl⟩
      · exact hs.2 a (h ▸ List.mem_cons_self a _)
      · intro g hg
        refine hs.2 g (h ▸ List.mem_cons_of_mem a hg)

/-- Popping an export capture while the entry stack `orig` sits below at
least one frame. -/
theorem pop_cap_pres (ctx : DslContext R RS) (orig : List ExportCapture)
    (j : List ExportCapture) (t0 : ExportCapture)
    (h : ctx.export_captures = j ++ t0 :: orig) :
    (StateOK ctx → StateOK (ctx.pop_define_export_capture).1) ∧
    (ctx.pop_define_export_capture).1.scopes = ctx.scopes ∧
    (∃ j2, (ctx.pop_define_export_capture).1.export_captures = j2 ++ orig) ∧
    (ctx.pop_define_export_capture).2 = none := by
  cases j with
  | nil =>
      simp only [List.nil_append] at h
      cases ht : t0.object with
      | some x =>
          rw [pop_cap_spec_some ctx t0 orig x h ht]
          exact ⟨fun hs => ⟨Or.inr (Or.inl ⟨rfl, rfl, rfl⟩), hs.2⟩,
            rfl, ⟨[], rfl⟩, rfl⟩
      | none =>
          rw [pop_cap_spec_none ctx t0 orig h ht]
          exact ⟨fun hs => ⟨hs.1, hs.2⟩, rfl, ⟨[], rfl⟩, rfl⟩
  | cons a j2 =>
      rw [List.cons_append] at h
      cases ht : a.object with
      | some x =>
          rw [pop_cap_spec_some ctx a (j2 ++ t0 :: orig) x h ht]
          exact ⟨fun hs => ⟨Or.inr (Or.inl ⟨rfl, rfl, rfl⟩), hs.2⟩,
            rfl, ⟨j2 ++ [t0], by simp⟩, rfl⟩
      | none =>
          rw [pop_cap_spec_none ctx a (j2 ++ t0 :: orig) h ht]
          exact ⟨fun hs => ⟨hs.1, hs.2⟩, rfl, ⟨j2 ++ [t0], by simp⟩, rfl⟩

/-- The push-scope / body / pop-scope bracket: if `c1` is the state right
after the push (its scope stack is one frame on top of the entry stack) and
the body run from `c1` to `c2` preserves, then popping at `c2` succeeds and
the whole bracket preserves. -/
theorem pop_bracket_pres {ctx c1 c2 : DslContext R RS} (f : ScopeFrame R)
    (hpush : c1.scopes = f :: ctx.scopes)
    (h1 : Pres ctx c1) (h2 : Pres c1 c2) :
    Pres ctx (c2.pop_scope).1 ∧ (c2.pop_scope).2 = none := by
  obtain ⟨j, hj⟩ := h2.2.1
  have hsc : c2.scopes = j ++ f :: ctx.scopes := by rw [hj, hpush]
  have hpop := pop_scope_pres c2 ctx.scopes j f hsc
  refine ⟨⟨fun hs => hpop.1 ((pres_trans h1 h2).1 hs), hpop.2.1, ?_⟩,
    hpop.2.2.2⟩
  rw [hpop.2.2.1]
  exact (pres_trans h1 h2).2.2

/-- The capture bracket of `create_instance`: push a capture frame, run the
definition body, pop the frame. -/
theorem pop_cap_bracket_pres {ctx c2 : DslContext R RS}
    (h2 : Pres ctx.push_define_export_capture c2) :
    Pres ctx (c2.pop_define_export_capture).1 ∧
    (c2.pop_define_export_capture).2 = none := by
  obtain ⟨j, t, hjt, hm⟩ := h2.2.2
  have hm2 : List.Forall₂ frMono
      ({ object := none, aliases := [] } :: ctx.export_captures) t := hm
  rcases List.forall₂_cons_left_iff.mp hm2 with ⟨t0, t1, _, hm1, rfl⟩
  have hcaps : c2.export_captures = j ++ t0 :: t1 := hjt
  have hpop := pop_cap_pres c2 t1 j t0 hcaps
  have hpres : Pres ctx c2 := pres_trans (pres_push_cap ctx) h2
  refine ⟨⟨fun hs => hpop.1 (hpres.1 hs), ?_, ?_⟩, hpop.2.2.2⟩
  · rw [hpop.2.1]; exact hpres.2.1
  · obtain ⟨j2, hj2⟩ := hpop.2.2.1
    exact ⟨j2, t1, hj2, hm1⟩

theorem prep_value_pres (a : Arg) (ctx : DslContext R RS) :
    Pres ctx (a.prepare_value ctx).1 := by
  cases a with
  | const q => exact pres_refl ctx
  | dyn v =>
      cases v with
      | range mn mx =>
          simp only [Arg.prepare_value, DslVal.prepare]
          split
          · exact pres_add_error ctx _
          · exact pres_refl ctx
      | weighted ws => exact pres_refl ctx

mutual

theorem prep_pres (op : DslOp) (ctx : DslContext R RS) :
    Pres ctx (op.prepare ctx).1 := by
  cases op with
  | define name seq =>
      unfold DslOp.prepare
      rcases h : prepareList seq ctx with ⟨c2, b⟩
      have hp := prepList_pres seq ctx
      rw [h] at hp
      cases b
      · exact hp
      · exact pres_trans hp (pres_set_definition c2 name seq)
  | exportLink a => exact pres_refl ctx
  | scope seq =>
      have hp := prepList_pres seq ctx
      exact hp
  | repeatOp count seq =>
      unfold DslOp.prepare
      rcases h : count.prepare_value ctx with ⟨c2, b⟩
      have hp := prep_value_pres count ctx
      rw [h] at hp
      cases b
      · exact hp
      · have hq := prepList_pres seq c2
        exact pres_trans hp hq
  | instanceOp name => exact pres_refl ctx
  | linkOp name => exact pres_refl ctx
  | eachLink pat seq =>
      have hp := prepList_pres seq ctx
      exact hp
  | maybe ratio seq =>
      unfold DslOp.prepare
      rcases h : ratio.prepare_value ctx with ⟨c2, b⟩
      have hp := prep_value_pres ratio ctx
      rw [h] at hp
      cases b
      · exact pres_trans hp (pres_add_error c2 _)
      · have hq := prepList_pres seq c2
        exact pres_trans hp hq
  | move l a => exact pres_refl ctx
  | rotateOp r a => exact pres_refl ctx
  | scaleOp sc a => exact pres_refl ctx

theorem prepList_pres (ops : List DslOp) (ctx : DslContext R RS) :
    Pres ctx (prepareList ops ctx).1 := by
  cases ops with
  | nil => exact pres_refl ctx
  | cons op rest =>
      unfold prepareList
      rcases h : op.prepare ctx with ⟨c2, b⟩
      have hp := prep_pres op ctx
      rw [h] at hp
      cases b
      · exact hp
      · have hq := prepList_pres rest c2
        exact pres_trans hp hq

end

theorem pres_instanceTemplate (H : Host R RS) (srcs : List SceneNode)
    (ctx : DslContext R RS) : Pres ctx (instanceTemplate H srcs ctx) := by
  cases srcs with
  | nil => exact pres_refl ctx
  | cons s ss =>
      simp only [instanceTemplate]
      split
      · exact pres_with_rand ctx _
      · exact pres_trans (pres_with_rand ctx _)
          (pres_trans (pres_set_current_object _ _)
            (pres_trans (pres_add_generated _ _) (pres_notify _ _)))

/-- Master preservation: every interpreter function preserves the cursor
invariant, keeps the entry scope stack as an untouched suffix, and keeps
the entry capture stack as a suffix of frames that never lose a captured
object — on success and on a raised exception alike. -/
theorem interpPres (H : Host R RS) : ∀ fuel : Nat,
    (∀ op ctx, Pres ctx (execOp H fuel op ctx).1) ∧
    (∀ ops ctx, Pres ctx (execOps H fuel ops ctx).1) ∧
    (∀ n ops ctx, Pres ctx (repeatLoop H fuel n ops ctx).1) ∧
    (∀ ls ops ctx, Pres ctx (eachLinkLoop H fuel ls ops ctx).1) ∧
    (∀ name ctx, Pres ctx (create_instance H fuel name ctx).1) ∧
    (∀ ctx, Pres ctx (instancerStep H fuel ctx).1) ∧
    (∀ ls ctx, Pres ctx (instancerLoop H fuel ls ctx).1) ∧
    (∀ ops ctx, Pres ctx (evalProdLoop H fuel ops ctx).1) ∧
    (∀ text ctx, Pres ctx (evaluate_production H fuel text ctx).1) := by
  intro fuel
  induction fuel with
  | zero =>
      refine ⟨fun op ctx => pres_refl ctx, fun ops ctx => pres_refl ctx,
        fun n ops ctx => pres_refl ctx, fun ls ops ctx => pres_refl ctx,
        fun name ctx => pres_refl ctx, fun ctx => pres_refl ctx,
        fun ls ctx => pres_refl ctx, fun ops ctx => pres_refl ctx,
        fun text ctx => pres_add_error ctx _⟩
  | succ fuel ih =>
      obtain ⟨ihOp, ihOps, ihRep, ihEach, ihCI, ihIS, ihIL, ihPL, ihEP⟩ := ih
      have hOp : ∀ op ctx, Pres ctx (execOp H (fuel + 1) op ctx).1 := by
        intro op ctx
        cases op with
        | define name seq => exact pres_refl ctx
        | exportLink a =>
            simp only [execOp]
            split
            · exact pres_add_error ctx _
            · exact pres_define_link_export ctx a
        | scope seq =>
            rcases hb : execOps H fuel seq ctx.push_scope with ⟨c2, e⟩
            have h2 := ihOps seq ctx.push_scope
            rw [hb] at h2
            have h1 := pres_push_scope ctx
            cases e with
            | some ex =>
                simp only [execOp]
                rw [hb]
                exact pres_trans h1 h2
            | none =>
                have hbr := pop_bracket_pres _ rfl h1 h2
                simp only [execOp]
                rw [hb]
                exact hbr.1
        | repeatOp count seq =>
            simp only [execOp]
            rcases hv : count.evaluate_value H ctx.rand_state with ⟨rs2, r⟩
            cases r with
            | error e => exact pres_with_rand ctx rs2
            | ok o =>
                cases o with
                | none => exact pres_with_rand ctx rs2
                | some q =>
                    show Pres ctx (if q.den = 1 then repeatLoop H fuel q.num.toNat seq { ctx with rand_state := rs2 } else ({ ctx with rand_state := rs2 }, some Exc.typeError)).1
                    split
                    · exact pres_trans (pres_with_rand ctx rs2)
                        (ihRep q.num.toNat seq _)
                    · exact pres_with_rand ctx rs2
        | instanceOp name =>
            simp only [execOp]
            split
            · exact pres_add_error ctx _
            · exact ihCI name ctx
        | linkOp name =>
            simp only [execOp]
            exact pres_move_to_link H ctx name
        | eachLink pat seq =>
            simp only [execOp]
            split
            · exact pres_add_error ctx _
            · exact ihEach (ctx.get_matching_links H pat) seq ctx
        | maybe ratio seq =>
            cases ratio with
            | dyn v =>
                simp only [execOp]
                exact pres_with_rand ctx _
            | const q =>
                simp only [execOp]
                split
                · exact pres_trans (pres_with_rand ctx (H.rand ctx.rand_state).2)
                    (ihOps seq { ctx with rand_state := (H.rand ctx.rand_state).2 })
                · exact pres_with_rand ctx (H.rand ctx.rand_state).2
        | move l a =>
            simp only [execOp]
            split
            · exact pres_of_untouched rfl rfl rfl rfl rfl
            · exact pres_of_untouched rfl rfl rfl rfl rfl
        | rotateOp r a =>
            simp only [execOp]
            split
            · exact pres_of_untouched rfl rfl rfl rfl rfl
            · exact pres_of_untouched rfl rfl rfl rfl rfl
        | scaleOp sc a =>
            simp only [execOp]
            split
            · exact pres_of_untouched rfl rfl rfl rfl rfl
            · exact pres_of_untouched rfl rfl rfl rfl rfl
      have hOps : ∀ ops ctx, Pres ctx (execOps H (fuel + 1) ops ctx).1 := by
        intro ops ctx
        cases ops with
        | nil => exact pres_refl ctx
        | cons op rest =>
            rcases h1 : execOp H fuel op ctx with ⟨c, e⟩
            have hp := ihOp op ctx
            rw [h1] at hp
            cases e with
            | some ex =>
                simp only [execOps]
                rw [h1]
                exact hp
            | none =>
                simp only [execOps]
                rw [h1]
                exact pres_trans hp (ihOps rest c)
      have hRep : ∀ n ops ctx, Pres ctx (repeatLoop H (fuel + 1) n ops ctx).1 := by
        intro n ops ctx
        cases n with
        | zero => exact pres_refl ctx
        | succ m =>
            rcases h1 : execOps H fuel ops ctx with ⟨c, e⟩
            have hp := ihOps ops ctx
            rw [h1] at hp
            cases e with
            | some ex =>
                simp only [repeatLoop]
                rw [h1]
                exact hp
            | none =>
                simp only [repeatLoop]
                rw [h1]
                exact pres_trans hp (ihRep m ops c)
      have hEach : ∀ ls ops ctx, Pres ctx (eachLinkLoop H (fuel + 1) ls ops ctx).1 := by
        intro ls ops ctx
        cases ls with
        | nil => exact pres_refl ctx
        | cons p rest =>
            have h1 : Pres ctx ((ctx.push_scope).set_current_link H p.2) :=
              pres_trans (pres_push_scope ctx) (pres_set_current_link H _ p.2)
            rcases hb : execOps H fuel ops ((ctx.push_scope).set_current_link H p.2) with ⟨c2, e⟩
            have h2 := ihOps ops ((ctx.push_scope).set_current_link H p.2)
            rw [hb] at h2
            cases e with
            | some ex =>
                simp only [eachLinkLoop]
                rw [hb]
                exact pres_trans h1 h2
            | none =>
                have hbr := pop_bracket_pres _ rfl h1 h2
                rcases hp2 : c2.pop_scope with ⟨c3, e2⟩
                have he2 : e2 = none := by
                  have := hbr.2
                  rw [hp2] at this
                  exact this
                subst he2
                have hc3 : Pres ctx c3 := by
                  have := hbr.1
                  rw [hp2] at this
                  exact this
                simp only [eachLinkLoop]
                simp only [hb, hp2]
                exact pres_trans hc3 (ihEach rest ops c3)
      have hCI : ∀ name ctx, Pres ctx (create_instance H (fuel + 1) name ctx).1 := by
        intro name ctx
        cases hd : ctx.get_definition name with
        | some seq =>
            rcases hb : execOps H fuel seq ctx.push_define_export_capture with ⟨c2, e⟩
            have h2 := ihOps seq ctx.push_define_export_capture
            rw [hb] at h2
            cases e with
            | some ex =>
                simp only [create_instance]
                simp only [hd, hb]
                exact pres_trans (pres_push_cap ctx) h2
            | none =>
                have hbr := pop_cap_bracket_pres h2
                rcases hp2 : c2.pop_define_export_capture with ⟨c3, e2⟩
                have he2 : e2 = none := by
                  have := hbr.2
                  rw [hp2] at this
                  exact this
                subst he2
                have hc3 : Pres ctx c3 := by
                  have := hbr.1
                  rw [hp2] at this
                  exact this
                simp only [create_instance]
                simp only [hd, hb, hp2]
                exact pres_trans hc3 (ihIS c3)
        | none =>
            cases hc : H.collections name with
            | none =>
                simp only [create_instance]
                simp only [hd, hc]
                exact ihIS ctx
            | some srcs =>
                simp only [create_instance]
                simp only [hd, hc]
                exact pres_trans (pres_instanceTemplate H srcs ctx)
                  (ihIS (instanceTemplate H srcs ctx))
      have hIS : ∀ ctx, Pres ctx (instancerStep H (fuel + 1) ctx).1 := by
        intro ctx
        cases hl : ctx.get_leaf_instancers with
        | none =>
            simp only [instancerStep]
            rw [hl]
            exact pres_refl ctx
        | some leaves =>
            simp only [instancerStep]
            rw [hl]
            exact ihIL leaves ctx
      have hIL : ∀ ls ctx, Pres ctx (instancerLoop H (fuel + 1) ls ctx).1 := by
        intro ls ctx
        cases ls with
        | nil => exact pres_refl ctx
        | cons p rest =>
            have h1 : Pres ctx ((ctx.push_scope).set_current_link H p.2) :=
              pres_trans (pres_push_scope ctx) (pres_set_current_link H _ p.2)
            simp only [instancerLoop]
            split
            · rcases hm : evaluate_production H fuel p.1 ((ctx.push_scope).set_current_link H p.2) with ⟨c2, ok⟩
              have h2 := ihEP p.1 ((ctx.push_scope).set_current_link H p.2)
              rw [hm] at h2
              cases ok with
              | true =>
                  have hbr := pop_bracket_pres _ rfl h1 h2
                  rcases hp2 : c2.pop_scope with ⟨c4, e2⟩
                  have he2 : e2 = none := by
                    have := hbr.2
                    rw [hp2] at this
                    exact this
                  subst he2
                  have hc4 : Pres ctx c4 := by
                    have := hbr.1
                    rw [hp2] at this
                    exact this
                  simp only [hp2]
                  exact pres_trans hc4 (ihIL rest c4)
              | false =>
                  have h3 : Pres ((ctx.push_scope).set_current_link H p.2) (c2.add_error "Could not evaluate instancer on object") :=
                    pres_trans h2 (pres_add_error c2 _)
                  have hbr := pop_bracket_pres _ rfl h1 h3
                  rcases hp2 : (c2.add_error "Could not evaluate instancer on object").pop_scope with ⟨c4, e2⟩
                  have he2 : e2 = none := by
                    have := hbr.2
                    rw [hp2] at this
                    exact this
                  subst he2
                  have hc4 : Pres ctx c4 := by
                    have := hbr.1
                    rw [hp2] at this
                    exact this
                  simp only [hp2]
                  exact pres_trans hc4 (ihIL rest c4)
            · rcases hci : create_instance H fuel p.1 ((ctx.push_scope).set_current_link H p.2) with ⟨c2, e⟩
              have h2 := ihCI p.1 ((ctx.push_scope).set_current_link H p.2)
              rw [hci] at h2
              cases e with
              | some ex => exact pres_trans h1 h2
              | none =>
                  have hbr := pop_bracket_pres _ rfl h1 h2
                  rcases hp2 : c2.pop_scope with ⟨c3, e2⟩
                  have he2 : e2 = none := by
                    have := hbr.2
                    rw [hp2] at this
                    exact this
                  subst he2
                  have hc3 : Pres ctx c3 := by
                    have := hbr.1
                    rw [hp2] at this
                    exact this
                  simp only [hp2]
                  exact pres_trans hc3 (ihIL rest c3)
      have hPL : ∀ ops ctx, Pres ctx (evalProdLoop H (fuel + 1) ops ctx).1 := by
        intro ops ctx
        cases ops with
        | nil => exact pres_refl ctx
        | cons op rest =>
            rcases hp : op.prepare ctx with ⟨c1, b⟩
            have h1 := prep_pres op ctx
            rw [hp] at h1
            simp only [evalProdLoop]
            rw [hp]
            split
            · exact h1
            · rcases he : execOp H fuel op c1 with ⟨c2, e⟩
              have h2 := ihOp op c1
              rw [he] at h2
              cases e with
              | some ex => exact pres_trans h1 h2
              | none =>
                  show Pres ctx (if c2.check_for_errors = true then (c2, ProdOutcome.failed) else evalProdLoop H fuel rest c2).1
                  split
                  · exact pres_trans h1 h2
                  · exact pres_trans (pres_trans h1 h2) (ihPL rest c2)
      have hEP : ∀ text ctx, Pres ctx (evaluate_production H (fuel + 1) text ctx).1 := by
        intro text ctx
        simp only [evaluate_production]
        split
        · cases hp : H.parseOps text with
          | none =>
              simp only [hp]
              exact pres_add_error ctx _
          | some ops =>
              rcases hl : evalProdLoop H fuel ops ctx with ⟨c, o⟩
              have h1 := ihPL ops ctx
              rw [hl] at h1
              simp only [hp]
              rw [hl]
              cases o with
              | finished => exact h1
              | failed => exact h1
              | exc e => exact pres_trans h1 (pres_add_error c _)
        · exact pres_add_error ctx _
      exact ⟨hOp, hOps, hRep, hEach, hCI, hIS, hIL, hPL, hEP⟩

/-! ## Scope balance -/

/-- `b` has the same cursor (object / aliases / link), captured link matrix
and accumulated local transform as `a`. -/
def sameCursorTrans (a b : DslContext R RS) : Prop :=
  b.cur_obj = a.cur_obj ∧ b.cur_obj_aliases = a.cur_obj_aliases ∧
  b.cur_link = a.cur_link ∧ b.cur_link_matrix = a.cur_link_matrix ∧
  b.cur_location = a.cur_location ∧ b.cur_rotation = a.cur_rotation ∧
  b.cur_scale = a.cur_scale

theorem sameCursorTrans_refl (a : DslContext R RS) : sameCursorTrans a a :=
  ⟨rfl, rfl, rfl, rfl, rfl, rfl, rfl⟩

theorem sameCursorTrans_trans {a b c : DslContext R RS}
    (h1 : sameCursorTrans a b) (h2 : sameCursorTrans b c) :
    sameCursorTrans a c := by
  obtain ⟨a1, a2, a3, a4, a5, a6, a7⟩ := h1
  obtain ⟨b1, b2, b3, b4, b5, b6, b7⟩ := h2
  exact ⟨b1.trans a1, b2.trans a2, b3.trans a3, b4.trans a4, b5.trans a5,
    b6.trans a6, b7.trans a7⟩

/-- Suffix form of `interpPres` for the each-link loop, stated so that the
start state can be inferred from the run equation. -/
theorem eachLinkLoop_suffix (H : Host R RS) (fuel : Nat)
    (ls : List (String × SceneNode)) (seq : List DslOp)
    (x c2 : DslContext R RS) (e : Option Exc)
    (h : eachLinkLoop H fuel ls seq x = (c2, e)) :
    ∃ k, c2.scopes = k ++ x.scopes := by
  have hp := (interpPres H fuel).2.2.2.1 ls seq x
  rw [h] at hp
  exact hp.2.1

/-- `GnScope.execute` restores the cursor and the transform whenever it
completes without an exception and the scope stack is back at its entry
depth (no junk frames were left behind by an exception swallowed inside a
nested instancer production). -/
theorem scope_restore (H : Host R RS) (fuel : Nat) (seq : List DslOp)
    (ctx c2 : DslContext R RS)
    (h : execOp H (fuel + 1) (.scope seq) ctx = (c2, none))
    (hs : c2.scopes = ctx.scopes) :
    sameCursorTrans ctx c2 := by
  rcases hb : execOps H fuel seq ctx.push_scope with ⟨c, e⟩
  have hpres := (interpPres H fuel).2.1 seq ctx.push_scope
  rw [hb] at hpres
  cases e with
  | some ex =>
      simp only [execOp, hb] at h
      exact absurd (congrArg Prod.snd h) (by simp)
  | none =>
      obtain ⟨j, hj⟩ := hpres.2.1
      cases j with
      | nil =>
          have hspec := pop_scope_spec c _ ctx.scopes (by rw [hj]; rfl)
          simp only [execOp, hb, hspec] at h
          injection h with h1 _
          subst h1
          exact ⟨rfl, rfl, rfl, rfl, rfl, rfl, rfl⟩
      | cons a j2 =>
          have hspec := pop_scope_spec c a (j2 ++ _ :: ctx.scopes) (by rw [hj]; rfl)
          simp only [execOp, hb, hspec] at h
          injection h with h1 _
          rw [← h1] at hs
          have hlen := congrArg List.length hs
          simp only [List.length_append, List.length_cons] at hlen
          omega

/-- The per-link loop of `GnEachLink.execute` restores the cursor and the
transform whenever it completes without an exception and the scope stack is
back at its entry depth. -/
theorem eachLinkLoop_restore (H : Host R RS) : ∀ (fuel : Nat)
    (ls : List (String × SceneNode)) (seq : List DslOp)
    (ctx c2 : DslContext R RS),
    eachLinkLoop H fuel ls seq ctx = (c2, none) → c2.scopes = ctx.scopes →
    sameCursorTrans ctx c2 := by
  intro fuel
  induction fuel with
  | zero =>
      intro ls seq ctx c2 h _hs
      exact absurd (congrArg Prod.snd h) (by simp [eachLinkLoop])
  | succ fuel ih =>
      intro ls seq ctx c2 h hs
      cases ls with
      | nil =>
          simp only [eachLinkLoop] at h
          injection h with h1 _
          subst h1
          exact sameCursorTrans_refl _
      | cons p rest =>
          rcases hb : execOps H fuel seq ((ctx.push_scope).set_current_link H p.2) with ⟨c, e⟩
          have hpres := (interpPres H fuel).2.1 seq ((ctx.push_scope).set_current_link H p.2)
          rw [hb] at hpres
          cases e with
          | some ex =>
              simp only [eachLinkLoop, hb] at h
              exact absurd (congrArg Prod.snd h) (by simp)
          | none =>
              obtain ⟨j, hj⟩ := hpres.2.1
              cases j with
              | nil =>
                  have hspec := pop_scope_spec c _ ctx.scopes (by rw [hj]; rfl)
                  simp only [eachLinkLoop, hb, hspec] at h
                  have hrec := ih rest seq _ c2 h hs
                  exact sameCursorTrans_trans
                    (⟨rfl, rfl, rfl, rfl, rfl, rfl, rfl⟩ : sameCursorTrans ctx _) hrec
              | cons a j2 =>
                  have hspec := pop_scope_spec c a (j2 ++ _ :: ctx.scopes) (by rw [hj]; rfl)
                  simp only [eachLinkLoop, hb, hspec] at h
                  obtain ⟨k, hk⟩ := eachLinkLoop_suffix H fuel rest seq _ c2 none h
                  rw [hs] at hk
                  have hlen := congrArg List.length hk
                  simp only [List.length_append, List.length_cons] at hlen
                  omega

/-- `GnEachLink.execute` as a whole restores the cursor and the transform
under the same conditions (the precondition-error branch leaves the cursor
untouched, so it restores trivially). -/
theorem eachLink_restore (H : Host R RS) (fuel : Nat) (pat : String)
    (seq : List DslOp) (ctx c2 : DslContext R RS)
    (h : execOp H (fuel + 1) (.eachLink pat seq) ctx = (c2, none))
    (hs : c2.scopes = ctx.scopes) :
    sameCursorTrans ctx c2 := by
  by_cases hobj : ctx.cur_obj = none
  · simp only [execOp, hobj, if_pos] at h
    injection h with h1 _
    subst h1
    exact ⟨rfl, rfl, rfl, rfl, rfl, rfl, rfl⟩
  · simp only [execOp, hobj, if_neg] at h
    exact eachLinkLoop_restore H fuel (ctx.get_matching_links H pat) seq ctx c2 h hs

instance [DecidableEq R] (a b : DslContext R RS) :
    Decidable (sameCursorTrans a b) := by
  unfold sameCursorTrans; infer_instance

/-! ## Link-search scoping -/

/-- `d` is a strict descendant of `n` reachable without crossing any
intermediate node that carries a link name: the frontier of the recursive
link search. -/
inductive LinklessDesc : SceneNode → SceneNode → Prop where
  | here {n c : SceneNode} : c ∈ n.children → LinklessDesc n c
  | there {n c d : SceneNode} : c ∈ n.children → c.linkName = none →
      LinklessDesc c d → LinklessDesc n d

/-- What one child contributes to the recursive link search. -/
theorem getLinksHead_mem (m : String → Bool) (c : SceneNode) (nm : String)
    (x : SceneNode) :
    ((nm, x) ∈ (match c.linkName with
      | some nm2 => if m nm2 then [(nm2, c)] else []
      | none => getLinksRecursive m c)) ↔
      ((c.linkName = some nm ∧ m nm = true ∧ x = c) ∨
        (c.linkName = none ∧ (nm, x) ∈ getLinksRecursive m c)) := by
  cases hl : c.linkName with
  | some nm2 =>
      show ((nm, x) ∈ (if m nm2 = true then [(nm2, c)] else [])) ↔ _
      by_cases hm : m nm2 = true
      · rw [if_pos hm]
        simp only [List.mem_singleton, Prod.mk.injEq, Option.some.injEq]
        constructor
        · rintro ⟨rfl, rfl⟩
          exact Or.inl ⟨rfl, hm, rfl⟩
        · rintro (⟨rfl, _, rfl⟩ | ⟨hbad, _⟩)
          · exact ⟨rfl, rfl⟩
          · cases hbad
      · rw [if_neg hm]
        simp only [List.not_mem_nil, false_iff, Option.some.injEq]
        rintro (⟨rfl, h2, rfl⟩ | ⟨hbad, _⟩)
        · exact hm h2
        · cases hbad
  | none =>
      show ((nm, x) ∈ getLinksRecursive m c) ↔ _
      constructor
      · intro h
        exact Or.inr ⟨rfl, h⟩
      · rintro (⟨hbad, _, _⟩ | ⟨_, h⟩)
        · cases hbad
        · exact h

theorem getLinksRecursiveList_mem (m : String → Bool) (cs : List SceneNode)
    (nm : String) (x : SceneNode) :
    (nm, x) ∈ getLinksRecursiveList m cs ↔
      ∃ c ∈ cs, (c.linkName = some nm ∧ m nm = true ∧ x = c) ∨
        (c.linkName = none ∧ (nm, x) ∈ getLinksRecursive m c) := by
  induction cs with
  | nil => simp [getLinksRecursiveList]
  | cons c rest ih =>
      simp only [getLinksRecursiveList, List.mem_append, ih, List.mem_cons]
      rw [getLinksHead_mem]
      constructor
      · rintro (hhead | ⟨d, hd, hcase⟩)
        · exact ⟨c, Or.inl rfl, hhead⟩
        · exact ⟨d, Or.inr hd, hcase⟩
      · rintro ⟨d, hd | hd, hcase⟩
        · subst hd
          exact Or.inl hcase
        · exact Or.inr ⟨d, hd, hcase⟩

/-- Membership characterisation of `_get_links_recursive`: a pair `(nm, x)`
is collected exactly when `x` carries the link name `nm`, the name matches
the pattern, and `x` is reachable from the root through link-less
intermediate nodes only.  In particular the search never descends below a
node that carries a link name, so a same-named link nested underneath
another link is unreachable. -/
theorem getLinksRecursive_mem (m : String → Bool) (root : SceneNode)
    (nm : String) (x : SceneNode) :
    (nm, x) ∈ getLinksRecursive m root ↔
      x.linkName = some nm ∧ m nm = true ∧ LinklessDesc root x := by
  rcases hroot : root with ⟨i, l, w, ins, cs⟩
  simp only [getLinksRecursive]
  rw [getLinksRecursiveList_mem]
  constructor
  · rintro ⟨c, hc, hcase⟩
    rcases hcase with ⟨h1, h2, rfl⟩ | ⟨h1, h2⟩
    · exact ⟨h1, h2, .here hc⟩
    · have ih := getLinksRecursive_mem m c nm x
      rcases ih.1 h2 with ⟨e1, e2, e3⟩
      exact ⟨e1, e2, .there hc h1 e3⟩
  · rintro ⟨h1, h2, hd⟩
    cases hd with
    | here hc => exact ⟨x, hc, Or.inl ⟨h1, h2, rfl⟩⟩
    | there hc hnone hdesc =>
        rename_i cmid
        have ih := getLinksRecursive_mem m cmid nm x
        exact ⟨cmid, hc, Or.inr ⟨hnone, ih.2 ⟨h1, h2, hdesc⟩⟩⟩
termination_by sizeOf root
decreasing_by
  all_goals subst hroot
  all_goals subst_vars
  all_goals
    have hlt := List.sizeOf_lt_of_mem hc
    simp only [SceneNode.children] at hlt
    simp only [SceneNode.mk.sizeOf_spec]
    omega

/-! ## A concrete host and context for witnesses -/

/-- A concrete host instantiation used to evaluate the interpreter on
closed inputs: Euler data is collapsed to `Unit`, the random state is a
draw counter whose uniform draws are the constant 0, `re.match` is exact
string equality, the parser never succeeds, there are no template
collections, and duplication returns the node itself. -/
def exHost : Host Unit Nat where
  eulerXYZ := fun _ _ _ => ()
  eulerRotate := fun _ _ => ()
  rand := fun n => (0, n + 1)
  randint := fun n lo _ => (lo, n + 1)
  reMatch := fun p st => p == st
  parseOps := fun _ => none
  collections := fun _ => none
  duplicate := fun n => some n

/-- A childless, property-less start node. -/
def exNode : SceneNode := .mk 0 none none none []

/-- The context the driver builds at the start of a run. -/
def exCtx : DslContext Unit Nat := DslContext.init exHost 0 exNode

/-- `exCtx` after a `set_current_object`: an `Object` cursor. -/
def exCtxObj : DslContext Unit Nat := exCtx.set_current_object exNode

/-- A node carrying the template weight -1, used to reach the fallback
branches of the two weighted selections. -/
def exNodeNeg : SceneNode := .mk 7 none (some (-1)) none []

/-- Decidable equality for `Except` results, used to evaluate the
interpreter on closed inputs. -/
def exceptDecEq {eps alpha : Type} [DecidableEq eps] [DecidableEq alpha] :
    DecidableEq (Except eps alpha)
  | .error e1, .error e2 =>
      if h : e1 = e2 then isTrue (by rw [h])
      else isFalse (by intro he; injection he; contradiction)
  | .error _, .ok _ => isFalse (by intro h; cases h)
  | .ok _, .error _ => isFalse (by intro h; cases h)
  | .ok a1, .ok a2 =>
      if h : a1 = a2 then isTrue (by rw [h])
      else isFalse (by intro he; injection he; contradiction)

instance {eps alpha : Type} [DecidableEq eps] [DecidableEq alpha] :
    DecidableEq (Except eps alpha) := exceptDecEq

/-! ## Claims -/

/-- C3: template selection in `create_instance` picks the first candidate
whose cumulative weight sum strictly exceeds the threshold (falling back to
the last candidate when none does), while `GnWeighted.evaluate` picks the
first pair whose cumulative sum is `>=` the threshold; for a draw landing
exactly on a cumulative boundary (threshold `w1` after a first weight of
`w1`) the two rules select different entries: the weighted value selects
the first entry, the template selection the second. -/
theorem c3_selection_asymmetry {α : Type} (H : Host R RS) (a b : α)
    (va vb w1 w2 : ℚ) (hw2 : 0 < w2) :
    selectCandidate [(a, w1), (b, w2)] 0 w1 = some b ∧
    selectWeighted [(w1, va), (w2, vb)] 0 w1 = some va ∧
    (∀ (srcs : List SceneNode) (ctx : DslContext R RS) (copy : SceneNode),
      srcs ≠ [] →
      selectCandidate (srcs.map fun c => (c, c.weightProp.getD 1)) 0
        ((H.rand ctx.rand_state).1 *
          ((srcs.map fun c => (c, c.weightProp.getD 1)).foldl
            (fun acc q => acc + q.2) 0)) = none →
      H.duplicate (srcs.getLastD default) = some copy →
      (instanceTemplate H srcs ctx).cur_obj = some copy) := by
  refine ⟨?_, ?_, ?_⟩
  · simp only [selectCandidate, zero_add]
    rw [if_neg (lt_irrefl w1), if_pos (by linarith)]
  · simp only [selectWeighted, zero_add]
    rw [if_pos (le_refl w1)]
  · intro srcs ctx copy hne hsel hdup
    cases srcs with
    | nil => exact absurd rfl hne
    | cons s ss =>
        have hn : ∀ (c : DslContext R RS) (o : SceneNode),
            (c.notify_instance_created o).cur_obj = c.cur_obj := by
          intro c o
          unfold DslContext.notify_instance_created
          split
          · split
            · rfl
            · rfl
          · rfl
        simp only [instanceTemplate, hsel, hdup]
        rw [hn]
        rfl

/-- C7: `GnWeighted.prepare` accepts an empty weight list without recording
any error (the shape check loops over nothing), and when no cumulative sum
reaches the drawn threshold `GnWeighted.evaluate` does not return the last
pair value: its fallback line `value = self.weights[self.weights - 1]`
subtracts an integer from a list and raises `TypeError`.  At the concrete
failing input `GnWeighted([(-1, 42)])` with the uniform draw 0 the code
raises instead of returning 42; an empty list itself does not crash at
evaluate (it returns the Python `None`). -/
theorem c7_weighted_bug (ctx : DslContext R RS) :
    (DslVal.weighted []).prepare ctx = (ctx, true) ∧
    (DslVal.weighted [(-1, 42)]).evaluate exHost 0 = (1, .error .typeError) ∧
    (DslVal.weighted []).evaluate exHost 0 = (1, .ok none) := by
  refine ⟨rfl, ?_, ?_⟩
  · simp only [DslVal.evaluate, exHost]
    norm_num [selectWeighted]
  · simp only [DslVal.evaluate, exHost]
    norm_num [selectWeighted]

/-- C8 counterexample: with an `Object` cursor (not a `Link`),
`GnMove.execute` records no precondition error at all and still mutates the
local translation, contradicting the claim that Move/Rotate/Scale require a
`Link` cursor and record an error otherwise. -/
theorem c8_counterexample :
    exCtxObj.cur_link = none ∧
    (execOp exHost 3 (.move (1, 2, 3) false) exCtxObj).2 = none ∧
    (execOp exHost 3 (.move (1, 2, 3) false) exCtxObj).1.errors = [] ∧
    (execOp exHost 3 (.move (1, 2, 3) false) exCtxObj).1.cur_location = (1, 2, 3) := by
  refine ⟨rfl, rfl, rfl, ?_⟩
  show (vecAdd (0, 0, 0) (1, 2, 3)) = ((1 : ℚ), (2 : ℚ), (3 : ℚ))
  norm_num [vecAdd]

/-- C8 amended: `GnMove.execute`, `GnRotate.execute` and `GnScale.execute`
perform no cursor check whatsoever — they raise nothing and record no
error for any cursor state — and set (absolute) or accumulate (relative:
translation adds, rotation composes through `Euler.rotate`, scale
multiplies component-wise) the local transform. -/
theorem c8_amended (H : Host R RS) (fuel : Nat) (ctx : DslContext R RS)
    (v : Vec3) :
    execOp H (fuel + 1) (.move v true) ctx = ({ ctx with cur_location := v }, none) ∧
    execOp H (fuel + 1) (.move v false) ctx = ({ ctx with cur_location := vecAdd ctx.cur_location v }, none) ∧
    execOp H (fuel + 1) (.rotateOp v true) ctx = ({ ctx with cur_rotation := H.eulerXYZ v.1 v.2.1 v.2.2 }, none) ∧
    execOp H (fuel + 1) (.rotateOp v false) ctx = ({ ctx with cur_rotation := H.eulerRotate ctx.cur_rotation (H.eulerXYZ v.1 v.2.1 v.2.2) }, none) ∧
    execOp H (fuel + 1) (.scaleOp v true) ctx = ({ ctx with cur_scale := v }, none) ∧
    execOp H (fuel + 1) (.scaleOp v false) ctx = ({ ctx with cur_scale := vecMul ctx.cur_scale v }, none) :=
  ⟨rfl, rfl, rfl, rfl, rfl, rfl⟩

/-- C10: `GnMaybe.execute` draws exactly one uniform sample and, for a
literal ratio, executes its body exactly when `sample <= ratio`.  But the
ratio is used raw — `evaluate_value` is never called on it — so a dynamic
`DslValue` ratio reaches the comparison `rand() <= self.ratio` as an
object and raises `TypeError` (the run is then aborted through the
production exception handler), instead of being evaluated to a constant as
the specification and the sibling operations (`GnRepeat` with
`evaluate_value`) intend. -/
theorem c10_maybe_bug (H : Host R RS) (fuel : Nat) (v : DslVal)
    (seq : List DslOp) (ctx : DslContext R RS) (q : ℚ) :
    execOp H (fuel + 1) (.maybe (.dyn v) seq) ctx =
      ({ ctx with rand_state := (H.rand ctx.rand_state).2 }, some .typeError) ∧
    ((H.rand ctx.rand_state).1 ≤ q →
      execOp H (fuel + 1) (.maybe (.const q) seq) ctx =
        execOps H fuel seq { ctx with rand_state := (H.rand ctx.rand_state).2 }) ∧
    (¬ (H.rand ctx.rand_state).1 ≤ q →
      execOp H (fuel + 1) (.maybe (.const q) seq) ctx =
        ({ ctx with rand_state := (H.rand ctx.rand_state).2 }, none)) := by
  refine ⟨rfl, fun hle => ?_, fun hgt => ?_⟩
  · simp only [execOp, if_pos hle]
  · simp only [execOp, if_neg hgt]

/-- C10 witness. -/
theorem c10_maybe_bug_witness :
    execOp exHost 3 (.maybe (.const 1) [.move (1, 0, 0) false]) exCtx =
      execOps exHost 2 [.move (1, 0, 0) false] { exCtx with rand_state := 1 } ∧
    execOp exHost 3 (.maybe (.const (-1)) [.move (1, 0, 0) false]) exCtx =
      ({ exCtx with rand_state := 1 }, none) := by
  constructor
  · exact (c10_maybe_bug exHost 2 (.range 1 2) [.move (1, 0, 0) false] exCtx 1).2.1
      (by show (0 : ℚ) ≤ 1; norm_num)
  · exact (c10_maybe_bug exHost 2 (.range 1 2) [.move (1, 0, 0) false] exCtx (-1)).2.2
      (by show ¬ (0 : ℚ) ≤ -1; norm_num)

/-- C3 witness: the boundary draw selects entry one under the weighted-value
rule and entry two under the template rule, and the template branch falls
back to the last candidate for a negative total weight. -/
theorem c3_selection_asymmetry_witness :
    selectCandidate [((0 : ℕ), (1 : ℚ)), (1, 3)] 0 1 = some 1 ∧
    selectWeighted [((1 : ℚ), (10 : ℚ)), (3, 20)] 0 1 = some 10 ∧
    (instanceTemplate exHost [exNodeNeg] exCtx).cur_obj = some exNodeNeg := by
  have h := c3_selection_asymmetry (α := ℕ) exHost 0 1 10 20 1 3 (by norm_num)
  refine ⟨h.1, h.2.1, ?_⟩
  refine h.2.2 [exNodeNeg] exCtx exNodeNeg (by decide) ?_ rfl
  show selectCandidate [(exNodeNeg, (-1 : ℚ))] 0 ((0 : ℚ) * ((0 : ℚ) + -1)) = none
  simp only [selectCandidate, zero_add]
  rw [if_neg (by norm_num)]

/-- C1 counterexample: in the top-level sequence
`[Move((1,0,0)), Repeat(Range(5,1), [])]` the structurally invalid
`Range(5,1)` makes PREPARE fail and the production reports failure with a
non-empty error list — but the EXECUTE phase was not skipped entirely: the
structurally valid sibling before the failing operation has already
executed and moved the local translation from (0,0,0) to (1,0,0), because
`evaluate_production` interleaves PREPARE and EXECUTE per operation. -/
theorem c1_counterexample :
    (evalProdLoop exHost 5 [.move (1, 0, 0) false, .repeatOp (.dyn (.range 5 1)) []] exCtx).2 = .failed ∧
    (evalProdLoop exHost 5 [.move (1, 0, 0) false, .repeatOp (.dyn (.range 5 1)) []] exCtx).1.errors ≠ [] ∧
    exCtx.cur_location = (0, 0, 0) ∧
    (evalProdLoop exHost 5 [.move (1, 0, 0) false, .repeatOp (.dyn (.range 5 1)) []] exCtx).1.cur_location = (1, 0, 0) := by
  refine ⟨by decide, by decide, rfl, ?_⟩
  norm_num [evalProdLoop, execOp, DslOp.prepare, Arg.prepare_value, DslVal.prepare,
    DslContext.check_for_errors, exCtx, exHost, DslContext.init, exNode, vecAdd,
    DslContext.add_error]

/-- C1 amended: `evaluate_production` interleaves PREPARE and EXECUTE per
operation; as soon as one operation PREPARE leaves the error list
non-empty, that operation EXECUTE and every later operation (both phases)
are skipped, the production reports failure with a non-empty error list,
and the driver reports zero generated objects.  Operations before the
failing one, however, have already executed (see the counterexample). -/
theorem c1_prepare_shortcircuit (H : Host R RS) (fuel : Nat) (op : DslOp)
    (rest : List DslOp) (ctx c1 : DslContext R RS) (b : Bool)
    (hprep : op.prepare ctx = (c1, b))
    (herr : c1.check_for_errors = true) :
    evalProdLoop H (fuel + 1) (op :: rest) ctx = (c1, .failed) ∧
    c1.errors ≠ [] ∧
    (∀ (text : String) (rs : RS) (start : SceneNode) (c : DslContext R RS),
      evaluate_production H fuel text (DslContext.init H rs start) = (c, false) →
      postExecuteGenerated H fuel text rs start = []) := by
  refine ⟨?_, ?_, ?_⟩
  · simp only [evalProdLoop, hprep]
    rw [if_pos herr]
  · intro hnil
    rw [DslContext.check_for_errors, hnil] at herr
    simp at herr
  · intro text rs start c hev
    simp only [postExecuteGenerated, hev]

/-- C1 witness: `Repeat(Range(5,1), [])` fails PREPARE and the loop stops
at once with the recorded error. -/
theorem c1_prepare_shortcircuit_witness :
    evalProdLoop exHost 4 [DslOp.repeatOp (.dyn (.range 5 1)) []] exCtx =
      (exCtx.add_error "GnRange: max_value is less than min_value", .failed) ∧
    (exCtx.add_error "GnRange: max_value is less than min_value").errors ≠ [] := by
  have h := c1_prepare_shortcircuit exHost 3 (DslOp.repeatOp (.dyn (.range 5 1)) [])
    [] exCtx (exCtx.add_error "GnRange: max_value is less than min_value") false
    rfl (by decide)
  exact ⟨h.1, h.2.1⟩

/-- C2 counterexample: the sequence `[EachLink("x", []), Move((1,0,0))]`
starts with a Link cursor, so the first operation is an `assert_instance_op`
precondition violation during EXECUTE.  The error is recorded, but the run
does unwind: `evaluate_production` returns failure at once and the sibling
`Move` after the failing operation never executes (the local translation
stays (0,0,0)). -/
theorem c2_counterexample :
    (evalProdLoop exHost 5 [.eachLink "x" [], .move (1, 0, 0) false] exCtx).2 = .failed ∧
    (evalProdLoop exHost 5 [.eachLink "x" [], .move (1, 0, 0) false] exCtx).1.errors ≠ [] ∧
    (evalProdLoop exHost 5 [.eachLink "x" [], .move (1, 0, 0) false] exCtx).1.cur_location = (0, 0, 0) := by
  exact ⟨by decide, by decide, by decide⟩

/-- C2 amended: a precondition violation during EXECUTE is recorded rather
than raised, and the enclosing nested sequence does continue past it
(`execOps` only stops on a raised exception) — but the top-level driver
loop checks the error list after every operation EXECUTE and stops the
whole production at the first operation that leaves it non-empty, so
top-level siblings after the failing operation do not execute. -/
theorem c2_execute_stops_siblings (H : Host R RS) (fuel : Nat) (op : DslOp)
    (rest : List DslOp) (ctx c1 c2 : DslContext R RS) (b : Bool)
    (hprep : op.prepare ctx = (c1, b))
    (hok : c1.check_for_errors = false)
    (hexec : execOp H fuel op c1 = (c2, none))
    (herr : c2.check_for_errors = true) :
    evalProdLoop H (fuel + 1) (op :: rest) ctx = (c2, .failed) ∧
    (∀ (op2 : DslOp) (rest2 : List DslOp) (d d2 : DslContext R RS),
      execOp H fuel op2 d = (d2, none) →
      execOps H (fuel + 1) (op2 :: rest2) d = execOps H fuel rest2 d2) := by
  refine ⟨?_, ?_⟩
  · simp only [evalProdLoop, hprep]
    rw [if_neg (by simp [hok]), ]
    simp only [hexec]
    rw [if_pos herr]
  · intro op2 rest2 d d2 hex
    simp only [execOps, hex]

/-- C2 witness: `EachLink` executed under a Link cursor records the
precondition error and stops the top-level loop; inside a nested sequence
`execOps` continues past an error-free step. -/
theorem c2_execute_stops_siblings_witness :
    evalProdLoop exHost 4 [DslOp.eachLink "x" [], .move (1, 0, 0) false] exCtx =
      (exCtx.add_error "GnEachLink: Error: Expected to be in an operation under a direct geometry instance.", .failed) ∧
    execOps exHost 4 [DslOp.move (1, 0, 0) false] exCtx =
      execOps exHost 3 [] { exCtx with cur_location := vecAdd exCtx.cur_location (1, 0, 0) } := by
  have h := c2_execute_stops_siblings exHost 3 (DslOp.eachLink "x" [])
    [.move (1, 0, 0) false] exCtx exCtx
    (exCtx.add_error "GnEachLink: Error: Expected to be in an operation under a direct geometry instance.")
    true rfl (by decide) rfl (by decide)
  exact ⟨h.1, h.2 (DslOp.move (1, 0, 0) false) [] exCtx _ rfl⟩

/-- C4 counterexample: `Maybe` and `Repeat` push no scope at all, so the
cursor/transform after they complete differ from the state before them:
`Maybe(1, [Move((1,0,0))])` completes without error yet leaves the local
translation changed, and so does `Repeat(1, [Move((1,0,0))])`, refuting
the claim that every construct among Scope, Repeat, EachLink and Maybe
restores the cursor and transform. -/
theorem c4_counterexample :
    (execOp exHost 6 (.maybe (.const 1) [.move (1, 0, 0) false]) exCtx).2 = none ∧
    ¬ sameCursorTrans exCtx (execOp exHost 6 (.maybe (.const 1) [.move (1, 0, 0) false]) exCtx).1 ∧
    (execOp exHost 6 (.repeatOp (.const 1) [.move (1, 0, 0) false]) exCtx).2 = none ∧
    ¬ sameCursorTrans exCtx (execOp exHost 6 (.repeatOp (.const 1) [.move (1, 0, 0) false]) exCtx).1 := by
  refine ⟨by decide, ?_, by decide, ?_⟩
  · intro h
    have hl := h.2.2.2.2.1
    norm_num [execOp, execOps, exCtx, exHost, DslContext.init, exNode, vecAdd] at hl
  · intro h
    have hl := h.2.2.2.2.1
    norm_num [execOp, execOps, repeatLoop, Arg.evaluate_value, exCtx, exHost,
      DslContext.init, exNode, vecAdd] at hl

/-- C4 amended: `Scope` and `EachLink` do restore the cursor (object /
aliases / link, with the captured link matrix) and the accumulated local
transform whenever they complete without a raised exception and the scope
stack is back at its entry depth — in particular always when no nested
instancer production swallowed an exception.  `Repeat` and `Maybe` execute
their bodies with no scoping at all, so their mutations persist (see the
counterexample). -/
theorem c4_scope_balance (H : Host R RS) (fuel : Nat) (seq : List DslOp)
    (pat : String) (ctx cS cE : DslContext R RS)
    (hS : execOp H (fuel + 1) (.scope seq) ctx = (cS, none))
    (hSs : cS.scopes = ctx.scopes)
    (hE : execOp H (fuel + 1) (.eachLink pat seq) ctx = (cE, none))
    (hEs : cE.scopes = ctx.scopes) :
    sameCursorTrans ctx cS ∧ sameCursorTrans ctx cE :=
  ⟨scope_restore H fuel seq ctx cS hS hSs,
    eachLink_restore H fuel pat seq ctx cE hE hEs⟩

/-- C4 witness: a scope and an each-link around a `Move` restore the cursor
and transform of an Object-cursor context. -/
theorem c4_scope_balance_witness :
    sameCursorTrans exCtxObj
      (execOp exHost 4 (.scope [.move (1, 0, 0) false]) exCtxObj).1 ∧
    sameCursorTrans exCtxObj
      (execOp exHost 4 (.eachLink "x" [.move (1, 0, 0) false]) exCtxObj).1 :=
  c4_scope_balance exHost 3 [.move (1, 0, 0) false] "x" exCtxObj
    (execOp exHost 4 (.scope [.move (1, 0, 0) false]) exCtxObj).1
    (execOp exHost 4 (.eachLink "x" [.move (1, 0, 0) false]) exCtxObj).1
    rfl (by decide) rfl (by decide)

/-- C5: the cursor invariant.  Exactly one of Object, ObjectWithAliases and
Link is populated: the three kinds are mutually exclusive, the initial
context and every interpreter step preserve membership in one of them,
`set_current_object` clears the aliases and the link, `set_current_link`
clears the object and the aliases and additionally resets the local
transform accumulator to identity (zero translation, zero rotation, unit
scale), and a pop of a capture frame with a captured object installs an
ObjectWithAliases cursor (clearing the link). -/
theorem c5_cursor_invariant (H : Host R RS) (fuel : Nat)
    (ctx : DslContext R RS) (obj link : SceneNode) (hok : StateOK ctx) :
    (∀ op, StateOK (execOp H fuel op ctx).1) ∧
    (∀ text, StateOK (evaluate_production H fuel text ctx).1) ∧
    (∀ (rs : RS) (start : SceneNode), StateOK (DslContext.init H rs start)) ∧
    (∀ c : DslContext R RS,
      ¬ (isObjectCursor c ∧ isAliasCursor c) ∧
      ¬ (isObjectCursor c ∧ isLinkCursor c) ∧
      ¬ (isAliasCursor c ∧ isLinkCursor c)) ∧
    isObjectCursor (ctx.set_current_object obj) ∧
    isLinkCursor (ctx.set_current_link H link) ∧
    (ctx.set_current_link H link).cur_location = (0, 0, 0) ∧
    (ctx.set_current_link H link).cur_rotation = H.eulerXYZ 0 0 0 ∧
    (ctx.set_current_link H link).cur_scale = (1, 1, 1) ∧
    (∀ cap rest x, ctx.export_captures = cap :: rest → cap.object = some x →
      isAliasCursor (ctx.pop_define_export_capture).1) := by
  refine ⟨fun op => ((interpPres H fuel).1 op ctx).1 hok,
    fun text => ((interpPres H fuel).2.2.2.2.2.2.2.2 text ctx).1 hok,
    fun rs start => ⟨Or.inr (Or.inr ⟨rfl, rfl, rfl⟩), fun f hf => ?_⟩,
    fun c => ?_, ⟨rfl, rfl, rfl⟩, ⟨rfl, rfl, rfl⟩, rfl, rfl, rfl, ?_⟩
  · simp [DslContext.init] at hf
  · refine ⟨fun hc => ?_, fun hc => ?_, fun hc => ?_⟩
    · rcases hc with ⟨⟨_, h1, _⟩, ⟨_, h2, _⟩⟩
      rw [h1] at h2
      simp at h2
    · rcases hc with ⟨⟨h1, _, _⟩, ⟨_, h2, _⟩⟩
      rw [h2] at h1
      simp at h1
    · rcases hc with ⟨⟨h1, _, _⟩, ⟨_, h2, _⟩⟩
      rw [h2] at h1
      simp at h1
  · intro cap rest x h hx
    rw [pop_cap_spec_some ctx cap rest x h hx]
    exact ⟨rfl, rfl, rfl⟩

/-- C5 witness: the initial example context satisfies the invariant and
setting an object installs an Object cursor. -/
theorem c5_cursor_invariant_witness :
    StateOK exCtx ∧ isObjectCursor (exCtx.set_current_object exNode) :=
  ⟨by decide, (c5_cursor_invariant exHost 3 exCtx exNode exNode (by decide)).2.2.2.2.1⟩

/-- C6: a capture frame records only the first object created in its
dynamic extent: `notify_instance_created` is a no-op once the top frame
holds an object, it fills an empty top frame, any interpreter run keeps an
already captured object in the surviving frame, and the pop installs
`ObjectWithAliases(capturedObject, capturedAliases)` exactly when an
object was captured, leaving the cursor unchanged otherwise. -/
theorem c6_first_capture_export (H : Host R RS) (fuel : Nat)
    (ctx : DslContext R RS) (cap : ExportCapture) (rest : List ExportCapture)
    (obj x : SceneNode)
    (htop : ctx.export_captures = cap :: rest) :
    (cap.object = some x → ctx.notify_instance_created obj = ctx) ∧
    (cap.object = none →
      ctx.notify_instance_created obj =
        { ctx with export_captures := { cap with object := some obj } :: rest }) ∧
    (∀ ops y, cap.object = some y →
      ∃ j cap2 t, (execOps H fuel ops ctx).1.export_captures = j ++ cap2 :: t ∧
        cap2.object = some y) ∧
    (cap.object = some x →
      ctx.pop_define_export_capture =
        ({ ctx with cur_obj := some x, cur_obj_aliases := some cap.aliases, cur_link := none, export_captures := rest }, none)) ∧
    (cap.object = none →
      ctx.pop_define_export_capture = ({ ctx with export_captures := rest }, none)) := by
  refine ⟨fun hx => ?_, fun hx => ?_, fun ops y hy => ?_,
    fun hx => pop_cap_spec_some ctx cap rest x htop hx,
    fun hx => pop_cap_spec_none ctx cap rest htop hx⟩
  · unfold DslContext.notify_instance_created
    rw [htop]
    simp only [hx]
  · unfold DslContext.notify_instance_created
    rw [htop]
    simp only [hx]
  · have hc := ((interpPres H fuel).2.1 ops ctx).2.2
    rcases hc with ⟨j, t, hje, hf⟩
    rw [htop] at hf
    cases hf with
    | cons hm hrest => exact ⟨j, _, _, hje, hm y hy⟩

/-- C6 witness: with a freshly pushed empty capture frame, notifying a
created object fills the frame. -/
theorem c6_first_capture_export_witness :
    (exCtx.push_define_export_capture).notify_instance_created exNode =
      { exCtx.push_define_export_capture with
        export_captures := [{ object := some exNode, aliases := [] }] } :=
  (c6_first_capture_export exHost 3 exCtx.push_define_export_capture
    { object := none, aliases := [] } [] exNode exNode rfl).2.1 rfl

/-- C9: link-name search is scope-bounded.  With an active alias map —
set and non-empty, matching the dict truthiness of
`elif self.cur_obj_aliases:` — only the alias map is searched (by pattern
match on the alias names), while an empty-but-set alias map falls through
to the recursive child search; otherwise the recursive search returns
exactly the descendants carrying a matching link-name property that are
reachable through link-free intermediate nodes (`LinklessDesc`), so the
search never descends below a link-named node: in the concrete two-level
tree, the outer "door" link is found but the same-named link nested below
it is not. -/
theorem c9_link_scope (H : Host R RS) (ctx : DslContext R RS)
    (amap : List (String × SceneNode)) (pat : String)
    (m : String → Bool) (root x : SceneNode) (nm : String)
    (halias : ctx.cur_obj_aliases = some amap) (hne : amap ≠ []) :
    ctx.get_matching_links H pat = amap.filter (fun p => H.reMatch pat p.1) ∧
    (∀ c : DslContext R RS, c.cur_obj_aliases = some [] → c.cur_obj = some root →
      c.get_matching_links H pat = getLinksRecursive (H.reMatch pat) root) ∧
    ((nm, x) ∈ getLinksRecursive m root ↔
      x.linkName = some nm ∧ m nm = true ∧ LinklessDesc root x) ∧
    getLinksRecursive (fun s => s == "door")
        (.mk 0 none none none
          [.mk 1 (some "door") none none [.mk 2 (some "door") none none []]]) =
      [("door", .mk 1 (some "door") none none [.mk 2 (some "door") none none []])] := by
  refine ⟨?_, ?_, getLinksRecursive_mem m root nm x, by decide⟩
  · cases amap with
    | nil => exact absurd rfl hne
    | cons a rest => simp only [DslContext.get_matching_links, halias]
  · intro c h1 h2
    simp only [DslContext.get_matching_links, h1, h2]

/-- C9 witness: an alias-map search with a concrete non-empty alias map. -/
theorem c9_link_scope_witness :
    ({ exCtx with cur_obj_aliases := some [("door", exNode)] } : DslContext Unit Nat).get_matching_links
        exHost "door" = [("door", exNode)] := by
  have h := (c9_link_scope exHost
    { exCtx with cur_obj_aliases := some [("door", exNode)] }
    [("door", exNode)] "door" (fun _ => true) exNode exNode "door" rfl
    (List.cons_ne_nil _ _)).1
  rw [h]
  decide
